import Mathlib

/-!
Verification of the UNIX-domain socket driver (src/drivers/uds/uds.c).

The driver state is a fixed table of socket slots.  Each operation of the
driver is embedded as a pure function from tables to tables (plus a result
value and, for reads, the bytes delivered to the requester).

Modelling conventions:
* `uds_perform_read`, `uds_perform_write` and `uds_unsuspend` are mutually
  recursive in C (waking a blocked peer re-runs its pending operation).  The
  recursion is embedded with an explicit `fuel` parameter consumed on each
  passage through `uds_unsuspend`; with fuel exhausted, `uds_unsuspend`
  leaves the table unchanged.
* The safe-copy primitives (`sys_safecopyto` / `sys_safecopyfrom`) are
  modelled as always succeeding: a read returns the list of bytes copied
  out, a write takes the requester's bytes as a `List Nat`.
* `panic()` aborts the driver; the branches that call it are modelled as
  returning the distinguished result `EPANIC` with the table unchanged.
* `chardriver_reply_task` and `chardriver_reply_select` only talk to the
  transport; their only table effects (clearing `suspended` / `sel_ops`)
  are modelled, the emitted messages are not.
* The sizing constants live in uds.h which is not among the sources.
  Modelled from the spec: `B = 128`, `N = 16`, `K_MAX = 4`,
  `UNIX_PATH_MAX = 104` (§6.4 and the literal values of spec §8).
-/

namespace Uds

/-- Ring buffer capacity per socket.  Modelled from the spec: `B = 128`. -/
def UDS_BUF : Nat := 128

/-- Size of the socket table.  Modelled from the spec: `N = 16`. -/
def NR_FDS : Nat := 16

/-- Maximum listener backlog.  Modelled from the spec: `K_MAX = 4`. -/
def UDS_SOMAXCONN : Nat := 4

/-- Maximum sun_path length.  Modelled from the spec (§6.4). -/
def UNIX_PATH_MAX : Nat := 104

def UDS_FREE : Nat := 0
def UDS_INUSE : Nat := 1

def UDS_R : Nat := 1
def UDS_W : Nat := 2

def SOCK_STREAM : Int := 1
def SOCK_DGRAM : Int := 2
def SOCK_SEQPACKET : Int := 5

def AF_UNIX : Nat := 1

def UDS_NOT_SUSPENDED : Nat := 0
def UDS_SUSPENDED_READ : Nat := 1
def UDS_SUSPENDED_WRITE : Nat := 2
def UDS_SUSPENDED_CONNECT : Nat := 3
def UDS_SUSPENDED_ACCEPT : Nat := 4

def CDEV_OP_RD : Nat := 1
def CDEV_OP_WR : Nat := 2
def CDEV_OP_ERR : Nat := 4
def CDEV_NOTIFY : Nat := 8
def CDEV_NONBLOCK : Nat := 16
def CDEV_CLONED : Int := 4096

/-- Error codes, negative as seen by MINIX system services. -/
def OK : Int := 0
def ENOENT : Int := -2
def EINTR : Int := -4
def ENXIO : Int := -6
def ENOMEM : Int := -12
def EINVAL : Int := -22
def ENFILE : Int := -23
def EPIPE : Int := -32
def EAGAIN : Int := -35
def EMSGSIZE : Int := -40
def ECONNRESET : Int := -54
def ENOTCONN : Int := -57
def EDONTREPLY : Int := -201
/-- Distinguished result standing in for a `panic()` call (driver abort). -/
def EPANIC : Int := -999

/-- The endpoint constant `NONE`. -/
def NONE_EP : Int := -1
def GRANT_INVALID : Int := -1

/-- One slot of the file descriptor table (`uds_fd_t`).  Addresses keep the
`sun_family` field and the `sun_path` array (a list of byte values); the
ancillary data is reduced to its `nfiledes` count (the only field the core
reads).  `susp_data` models the requester bytes reachable through
`susp_grant` while a write is suspended. -/
structure UdsFd where
  state : Nat
  owner : Int
  sel_endpt : Int
  sel_ops : Nat
  buf : Nat → Nat
  pos : Nat
  size : Nat
  mode : Nat
  type : Int
  backlog : List Int
  backlog_size : Nat
  nfiledes : Nat
  listening : Bool
  peer : Int
  child : Int
  addr_family : Nat
  addr_path : List Nat
  source_family : Nat
  source_path : List Nat
  target_family : Nat
  target_path : List Nat
  suspended : Nat
  susp_endpt : Int
  susp_grant : Int
  susp_size : Nat
  susp_id : Int
  susp_data : List Nat
  err : Int

/-- The all-zero slot produced by `memset(&uds_fd_table[minor], '\0', ...)`
(and by `uds_init`).  Note that a zeroed slot has `peer = 0`, `type = 0`,
`child = 0`: the semantics never read these fields of a FREE slot. -/
def emptyFd : UdsFd where
  state := 0
  owner := 0
  sel_endpt := 0
  sel_ops := 0
  buf := fun _ => 0
  pos := 0
  size := 0
  mode := 0
  type := 0
  backlog := List.replicate UDS_SOMAXCONN 0
  backlog_size := 0
  nfiledes := 0
  listening := false
  peer := 0
  child := 0
  addr_family := 0
  addr_path := List.replicate UNIX_PATH_MAX 0
  source_family := 0
  source_path := List.replicate UNIX_PATH_MAX 0
  target_family := 0
  target_path := List.replicate UNIX_PATH_MAX 0
  suspended := 0
  susp_endpt := 0
  susp_grant := 0
  susp_size := 0
  susp_id := 0
  susp_data := []
  err := 0

/-- The file descriptor table `uds_fd_table[NR_FDS]`; only indices below
`NR_FDS` are meaningful. -/
def Table := Nat → UdsFd

/-- Point update of one slot. -/
def upd (t : Table) (i : Nat) (f : UdsFd → UdsFd) : Table :=
  fun j => if j = i then f (t j) else t j

/-- The table right after `uds_init` (everything zeroed). -/
def initTable : Table := fun _ => emptyFd

/-- `strncmp(a, b, n) == 0` for C strings stored in byte arrays:
characters are compared pairwise until a difference, a NUL byte, or `n`
characters. -/
def strncmpEq : List Nat → List Nat → Nat → Bool
  | _, _, 0 => true
  | [], [], _ + 1 => true
  | [], _ :: _, _ + 1 => false
  | _ :: _, [], _ + 1 => false
  | x :: xs, y :: ys, n + 1 => x == y && (x == 0 || strncmpEq xs ys n)

/-- Contiguous `memcpy` of `data` into `buf` at offset `pos`. -/
def blit (buf : Nat → Nat) (pos : Nat) (data : List Nat) : Nat → Nat :=
  fun j => if pos ≤ j ∧ j < pos + data.length then data.getD (j - pos) 0 else buf j

/-- Contiguous read of `n` bytes of `buf` starting at offset `pos`. -/
def seg (buf : Nat → Nat) (pos n : Nat) : List Nat :=
  (List.range n).map fun i => buf (pos + i)

/-- The two-segment deposit of `uds_perform_write` (lines 442-457): a first
`memcpy` of `subsize = min(UDS_BUF - head, len)` bytes at the head, and, if
the data wraps, a second `memcpy` of the remainder at offset 0. -/
def ringDeposit (buf : Nat → Nat) (head : Nat) (data : List Nat) : Nat → Nat :=
  let subsize := min (UDS_BUF - head) data.length
  let b1 := blit buf head (data.take subsize)
  if subsize < data.length then blit b1 0 (data.drop subsize) else b1

/-- The two-segment extraction of `uds_perform_read` (lines 301-317):
`subsize = min(UDS_BUF - pos, n)` bytes from the tail, then the wrapped
remainder from offset 0. -/
def ringExtract (buf : Nat → Nat) (pos n : Nat) : List Nat :=
  let subsize := min (UDS_BUF - pos) n
  if subsize < n then seg buf pos subsize ++ seg buf 0 (n - subsize)
  else seg buf pos subsize

/-- The datagram destination scan of `uds_perform_write` (lines 386-398):
the first slot whose type is `SOCK_DGRAM`, whose bound family is `AF_UNIX`
and whose bound path equals the writer's target path. -/
def dgramScan (t : Table) (minor : Nat) : Option Nat :=
  (List.range NR_FDS).find? fun i =>
    (t i).type == SOCK_DGRAM && (t i).addr_family == AF_UNIX &&
    strncmpEq (t minor).target_path (t i).addr_path UNIX_PATH_MAX

/-- `uds_perform_read(minor, endpt, grant, size, pretend)` (lines 240-341),
parametrised by the wake procedure used for a blocked peer writer
(`uds_unsuspend` in C).  Returns the result value, the bytes copied to the
requester, and the new table. -/
def drainT2 (t : Table) (minor rsize : Nat) : Table :=
  if ((upd t minor fun f =>
        { f with pos := ((t minor).pos + rsize) % UDS_BUF,
                 size := f.size - rsize }) minor).size = 0 then
    upd (upd t minor fun f =>
        { f with pos := ((t minor).pos + rsize) % UDS_BUF,
                 size := f.size - rsize }) minor
      (fun f => { f with pos := 0 })
  else upd t minor fun f =>
    { f with pos := ((t minor).pos + rsize) % UDS_BUF,
             size := f.size - rsize }

def drainT3 (wake : Table → Nat → Table) (t : Table) (minor rsize : Nat)
    (peer : Int) : Table :=
  if peer ≠ -1 ∧
      (drainT2 t minor rsize peer.toNat).suspended = UDS_SUSPENDED_WRITE
    then wake (drainT2 t minor rsize) peer.toNat
    else drainT2 t minor rsize

def drainT4 (wake : Table → Nat → Table) (t : Table) (minor rsize : Nat)
    (peer : Int) : Table :=
  if peer ≠ -1 ∧
      (drainT3 wake t minor rsize peer peer.toNat).sel_ops &&& CDEV_OP_WR ≠ 0 ∧
      (drainT3 wake t minor rsize peer minor).size < UDS_BUF
    then upd (drainT3 wake t minor rsize peer) peer.toNat
      (fun f => { f with sel_ops := f.sel_ops &&& (7 ^^^ CDEV_OP_WR) })
    else drainT3 wake t minor rsize peer

def performReadCore (wake : Table → Nat → Table) (t : Table) (minor : Nat)
    (size : Nat) (pretend : Bool) : Int × List Nat × Table :=
  if size = 0 then (0, [], t)
  else if (t minor).mode &&& UDS_R = 0 then (EPIPE, [], t)
  else if (t minor).size = 0 then
    if (t minor).peer = -1 ∧
        ((t minor).type = SOCK_STREAM ∨ (t minor).type = SOCK_SEQPACKET) then
      if (t minor).err = ECONNRESET then
        if pretend then (ECONNRESET, [], t)
        else (ECONNRESET, [], upd t minor fun f => { f with err := 0 })
      else (ENOTCONN, [], t)
    else if (t minor).peer ≠ -1 ∧
        (t (t minor).peer.toNat).mode &&& UDS_W = 0 then (0, [], t)
    else if pretend then (EDONTREPLY, [], t)
    else if (t minor).peer ≠ -1 ∧
        (t (t minor).peer.toNat).suspended = UDS_SUSPENDED_WRITE then
      (EPANIC, [], t)
    else (EDONTREPLY, [], t)
  else
    if pretend then ((min size (t minor).size : Nat), [], t)
    else
      ((min size (t minor).size : Nat),
       ringExtract (t minor).buf (t minor).pos (min size (t minor).size),
       drainT4 wake t minor (min size (t minor).size) (t minor).peer)

/-- Lines 404-481 of `uds_perform_write`: the part common to both socket
kinds once the destination slot `peer` has been resolved. -/
def depositT1 (t : Table) (peer : Nat) (data : List Nat) (wsize : Nat) :
    Table :=
  upd t peer fun f =>
    { f with buf := ringDeposit f.buf (((t peer).pos + (t peer).size) % UDS_BUF)
               (data.take wsize),
             size := f.size + wsize }

def depositT2 (t : Table) (minor peer : Nat) (data : List Nat) (wsize : Nat) :
    Table :=
  if (t minor).type = SOCK_DGRAM then
    upd (depositT1 t peer data wsize) peer (fun f =>
      { f with source_family := (t minor).addr_family,
               source_path := (t minor).addr_path })
  else depositT1 t peer data wsize

def depositT3 (wake : Table → Nat → Table) (t : Table) (minor peer : Nat)
    (data : List Nat) (wsize : Nat) : Table :=
  if (depositT2 t minor peer data wsize peer).suspended = UDS_SUSPENDED_READ
    then wake (depositT2 t minor peer data wsize) peer
    else depositT2 t minor peer data wsize

def depositT4 (wake : Table → Nat → Table) (t : Table) (minor peer : Nat)
    (data : List Nat) (wsize : Nat) : Table :=
  if (depositT3 wake t minor peer data wsize peer).sel_ops &&& CDEV_OP_RD ≠ 0 ∧
      (depositT3 wake t minor peer data wsize peer).size > 0
    then upd (depositT3 wake t minor peer data wsize) peer
      (fun f => { f with sel_ops := f.sel_ops &&& (7 ^^^ CDEV_OP_RD) })
    else depositT3 wake t minor peer data wsize

def writeToCore (wake : Table → Nat → Table) (t : Table) (minor : Nat)
    (data : List Nat) (size : Nat) (pretend : Bool) (peer : Nat) : Int × Table :=
  if (t peer).mode &&& UDS_R = 0 then (EPIPE, t)
  else if (t minor).type = SOCK_DGRAM ∧ (t peer).size > 0 then ((size : Int), t)
  else if (t peer).size = UDS_BUF ∨
      ((t minor).type = SOCK_SEQPACKET ∧ (t peer).size > 0) then
    if pretend then (EDONTREPLY, t)
    else if (t peer).suspended = UDS_SUSPENDED_READ then (EPANIC, t)
    else (EDONTREPLY, t)
  else
    if pretend then ((min size (UDS_BUF - (t peer).size) : Nat), t)
    else
      ((min size (UDS_BUF - (t peer).size) : Nat),
       depositT4 wake t minor peer data (min size (UDS_BUF - (t peer).size)))

/-- `uds_perform_write(minor, endpt, grant, size, pretend)` (lines 343-481),
parametrised by the wake procedure.  `data` is the requester's bytes. -/
def performWriteCore (wake : Table → Nat → Table) (t : Table) (minor : Nat)
    (data : List Nat) (size : Nat) (pretend : Bool) : Int × Table :=
  if size = 0 then (0, t)
  else if (t minor).mode &&& UDS_W = 0 then (EPIPE, t)
  else if UDS_BUF < size ∧ (t minor).type ≠ SOCK_STREAM then (EMSGSIZE, t)
  else if (t minor).type = SOCK_STREAM ∨ (t minor).type = SOCK_SEQPACKET then
    if (t minor).peer = -1 then
      if (t minor).err = ECONNRESET then
        if pretend then (ECONNRESET, t)
        else (ECONNRESET, upd t minor fun f => { f with err := 0 })
      else (ENOTCONN, t)
    else if (t (t minor).peer.toNat).peer = -1 then (EDONTREPLY, t)
    else writeToCore wake t minor data size pretend (t minor).peer.toNat
  else
    match dgramScan t minor with
    | none => (ENOENT, t)
    | some peer => writeToCore wake t minor data size pretend peer

/-- `uds_unsuspend(minor)` (lines 593-638).  One unit of fuel is consumed
per invocation; with fuel 0 the table is left unchanged (this situation is
unreachable for the executions the theorems below are about). -/
def uds_unsuspend : Nat → Table → Nat → Table
  | 0, t, _ => t
  | fuel + 1, t, minor =>
    if (t minor).suspended = UDS_SUSPENDED_READ then
      if (performReadCore (uds_unsuspend fuel) t minor
            (t minor).susp_size false).1 = EDONTREPLY then
        (performReadCore (uds_unsuspend fuel) t minor
          (t minor).susp_size false).2.2
      else upd (performReadCore (uds_unsuspend fuel) t minor
          (t minor).susp_size false).2.2 minor
        fun f => { f with suspended := UDS_NOT_SUSPENDED }
    else if (t minor).suspended = UDS_SUSPENDED_WRITE then
      if (performWriteCore (uds_unsuspend fuel) t minor
            (t minor).susp_data (t minor).susp_size false).1 = EDONTREPLY then
        (performWriteCore (uds_unsuspend fuel) t minor
          (t minor).susp_data (t minor).susp_size false).2
      else upd (performWriteCore (uds_unsuspend fuel) t minor
          (t minor).susp_data (t minor).susp_size false).2 minor
        fun f => { f with suspended := UDS_NOT_SUSPENDED }
    else if (t minor).suspended = UDS_SUSPENDED_CONNECT ∨
        (t minor).suspended = UDS_SUSPENDED_ACCEPT then
      upd t minor fun f => { f with err := 0, suspended := UDS_NOT_SUSPENDED }
    else t

def uds_perform_read (fuel : Nat) (t : Table) (minor : Nat) (size : Nat)
    (pretend : Bool) : Int × List Nat × Table :=
  performReadCore (uds_unsuspend fuel) t minor size pretend

def uds_perform_write (fuel : Nat) (t : Table) (minor : Nat) (data : List Nat)
    (size : Nat) (pretend : Bool) : Int × Table :=
  performWriteCore (uds_unsuspend fuel) t minor data size pretend

/-- `uds_reset(minor)` (lines 110-129). -/
def resetT1 (t : Table) (minor : Nat) : Table :=
  upd t minor fun f => { f with peer := -1, err := ECONNRESET }

def resetT2 (fuel : Nat) (t : Table) (minor : Nat) : Table :=
  if (resetT1 t minor minor).suspended ≠ UDS_NOT_SUSPENDED
    then uds_unsuspend fuel (resetT1 t minor) minor else resetT1 t minor

def uds_reset (fuel : Nat) (t : Table) (minor : Nat) : Table :=
  if (resetT2 fuel t minor minor).sel_ops ≠ 0 then
    upd (resetT2 fuel t minor) minor (fun f => { f with sel_ops := 0 })
  else resetT2 fuel t minor

/-- Removal of the first backlog entry equal to `m` (lines 149-154). -/
def backlogRemove (bl : List Int) (sz : Nat) (m : Int) : List Int :=
  match (List.range sz).find? (fun i => bl.getD i (-1) == m) with
  | some i => bl.set i (-1)
  | none => bl

/-- `uds_close(minor)` (lines 131-181).  `uds_clear_fds` only releases
resources outside the table, and the termination-drain counter is not part
of the table; neither is modelled. -/
def uds_close (fuel : Nat) (t : Table) (minor : Int) : Int × Table :=
  if minor < 0 ∨ (NR_FDS : Int) ≤ minor then ( ENXIO, t)
  else if (t minor.toNat).state ≠ UDS_INUSE then (EINVAL, t)
  else if (t minor.toNat).peer ≠ -1 ∧
      (t (t minor.toNat).peer.toNat).peer = -1 then
    if (t (t minor.toNat).peer.toNat).listening = false then (EPANIC, t)
    else
      (OK, upd (upd t (t minor.toNat).peer.toNat fun f =>
          { f with backlog := backlogRemove f.backlog f.backlog_size minor })
        minor.toNat fun _ => emptyFd)
  else if (t minor.toNat).peer ≠ -1 then
    (OK, upd (uds_reset fuel t (t minor.toNat).peer.toNat) minor.toNat
      fun _ => emptyFd)
  else if (t minor.toNat).listening then
    (OK, upd ((List.range (t minor.toNat).backlog_size).foldl
        (fun tc i => if (tc minor.toNat).backlog.getD i (-1) ≠ -1
          then uds_reset fuel tc
            ((tc minor.toNat).backlog.getD i (-1)).toNat else tc) t)
      minor.toNat fun _ => emptyFd)
  else (OK, upd t minor.toNat fun _ => emptyFd)

/-- `uds_open(minor, access, user_endpt)` (lines 41-108).  The `mmap` of the
ring buffer is modelled as succeeding. -/
def uds_open (t : Table) (user_endpt : Int) : Int × Table :=
  match (List.range' 1 (NR_FDS - 1)).find? (fun minor => (t minor).state == UDS_FREE) with
  | none => (ENFILE, t)
  | some minor =>
    (CDEV_CLONED + (minor : Int), upd t minor fun _ =>
      { state := UDS_INUSE
        owner := user_endpt
        sel_endpt := NONE_EP
        sel_ops := 0
        buf := fun _ => 0
        pos := 0
        size := 0
        mode := UDS_R ||| UDS_W
        type := -1
        backlog := List.replicate UDS_SOMAXCONN (-1)
        backlog_size := UDS_SOMAXCONN
        nfiledes := 0
        listening := false
        peer := -1
        child := -1
        addr_family := 0
        addr_path := List.replicate UNIX_PATH_MAX 0
        source_family := 0
        source_path := List.replicate UNIX_PATH_MAX 0
        target_family := 0
        target_path := List.replicate UNIX_PATH_MAX 0
        suspended := UDS_NOT_SUSPENDED
        susp_endpt := (t minor).susp_endpt
        susp_grant := (t minor).susp_grant
        susp_size := (t minor).susp_size
        susp_id := (t minor).susp_id
        susp_data := (t minor).susp_data
        err := (t minor).err })

/-- `uds_cancel(minor, endpt, id)` (lines 640-691). -/
def uds_cancel (t : Table) (minor : Int) (endpt : Int) (id : Int) : Int × Table :=
  if minor < 0 ∨ (NR_FDS : Int) ≤ minor then (EDONTREPLY, t)
  else if (t minor.toNat).state ≠ UDS_INUSE then (EDONTREPLY, t)
  else if (t minor.toNat).suspended = UDS_NOT_SUSPENDED ∨
      (t minor.toNat).susp_endpt ≠ endpt ∨
      (t minor.toNat).susp_id ≠ id then (EDONTREPLY, t)
  else if (t minor.toNat).suspended = UDS_SUSPENDED_ACCEPT then
    (EINTR, upd ((List.range NR_FDS).foldl
        (fun tc i => if (tc i).child = minor
          then upd tc i (fun f => { f with child := -1 }) else tc) t)
      minor.toNat fun f => { f with suspended := UDS_NOT_SUSPENDED })
  else if (t minor.toNat).suspended = UDS_SUSPENDED_CONNECT ∨
      (t minor.toNat).suspended = UDS_SUSPENDED_READ ∨
      (t minor.toNat).suspended = UDS_SUSPENDED_WRITE then
    (EINTR, upd t minor.toNat fun f => { f with suspended := UDS_NOT_SUSPENDED })
  else (EPANIC, t)

/-- `uds_read(minor, position, endpt, grant, size, flags, id)`
(lines 483-515). -/
def readSusp (fuel : Nat) (t : Table) (m : Nat) (endpt : Int) (grant : Int)
    (size : Nat) (id : Int) : Table :=
  upd (uds_perform_read fuel t m size false).2.2 m fun f =>
    { f with suspended := UDS_SUSPENDED_READ, susp_endpt := endpt,
             susp_grant := grant, susp_size := size, susp_id := id }

def uds_read (fuel : Nat) (t : Table) (minor : Int) (endpt : Int) (grant : Int)
    (size : Nat) (flags : Nat) (id : Int) : Int × List Nat × Table :=
  if minor < 0 ∨ (NR_FDS : Int) ≤ minor then ( ENXIO, [], t)
  else if (t minor.toNat).state ≠ UDS_INUSE then (EINVAL, [], t)
  else if (uds_perform_read fuel t minor.toNat size false).1 = EDONTREPLY then
    if flags &&& CDEV_NONBLOCK ≠ 0 then
      (EAGAIN, (uds_perform_read fuel t minor.toNat size false).2.1,
       (uds_cancel (readSusp fuel t minor.toNat endpt grant size id)
          minor endpt id).2)
    else (EDONTREPLY, (uds_perform_read fuel t minor.toNat size false).2.1,
      readSusp fuel t minor.toNat endpt grant size id)
  else uds_perform_read fuel t minor.toNat size false

/-- `uds_write(minor, position, endpt, grant, size, flags, id)`
(lines 517-549).  `data` is the requester's bytes reachable through
`grant`; suspension saves them as `susp_data`. -/
def writeSusp (fuel : Nat) (t : Table) (m : Nat) (endpt : Int) (grant : Int)
    (data : List Nat) (size : Nat) (id : Int) : Table :=
  upd (uds_perform_write fuel t m data size false).2 m fun f =>
    { f with suspended := UDS_SUSPENDED_WRITE, susp_endpt := endpt,
             susp_grant := grant, susp_size := size, susp_id := id,
             susp_data := data }

def uds_write (fuel : Nat) (t : Table) (minor : Int) (endpt : Int) (grant : Int)
    (data : List Nat) (size : Nat) (flags : Nat) (id : Int) : Int × Table :=
  if minor < 0 ∨ (NR_FDS : Int) ≤ minor then ( ENXIO, t)
  else if (t minor.toNat).state ≠ UDS_INUSE then (EINVAL, t)
  else if (uds_perform_write fuel t minor.toNat data size false).1 =
      EDONTREPLY then
    if flags &&& CDEV_NONBLOCK ≠ 0 then
      (EAGAIN, (uds_cancel (writeSusp fuel t minor.toNat endpt grant data size id)
          minor endpt id).2)
    else (EDONTREPLY, writeSusp fuel t minor.toNat endpt grant data size id)
  else uds_perform_write fuel t minor.toNat data size false

/-- `uds_select(minor, ops, endpt)` (lines 183-238). -/
def selOps (ops0 : Nat) : Nat :=
  ops0 &&& (CDEV_OP_RD ||| CDEV_OP_WR ||| CDEV_OP_ERR)

def selT1 (fuel : Nat) (t : Table) (m : Nat) (ops0 : Nat) : Table :=
  if selOps ops0 &&& CDEV_OP_RD ≠ 0 then (uds_perform_read fuel t m 1 true).2.2
  else t

def selReady1 (fuel : Nat) (t : Table) (m : Nat) (ops0 : Nat) : Nat :=
  if selOps ops0 &&& CDEV_OP_RD ≠ 0 then
    if (uds_perform_read fuel t m 1 true).1 > 0 then CDEV_OP_RD
    else if (selT1 fuel t m ops0 m).listening = true then
      if (List.range (selT1 fuel t m ops0 m).backlog_size).any
          (fun i => (selT1 fuel t m ops0 m).backlog.getD i (-1) != -1)
        then CDEV_OP_RD else 0
    else if (uds_perform_read fuel t m 1 true).1 ≠ EDONTREPLY then CDEV_OP_RD
    else 0
  else 0

def selT2 (fuel : Nat) (t : Table) (m : Nat) (ops0 : Nat) : Table :=
  if selOps ops0 &&& CDEV_OP_WR ≠ 0 then
    (uds_perform_write fuel (selT1 fuel t m ops0) m [] 1 true).2
  else selT1 fuel t m ops0

def selReady2 (fuel : Nat) (t : Table) (m : Nat) (ops0 : Nat) : Nat :=
  if selOps ops0 &&& CDEV_OP_WR ≠ 0 then
    if (uds_perform_write fuel (selT1 fuel t m ops0) m [] 1 true).1 ≠ 0 ∧
        (uds_perform_write fuel (selT1 fuel t m ops0) m [] 1 true).1 ≠
          EDONTREPLY
      then CDEV_OP_WR else 0
  else 0

def selReady (fuel : Nat) (t : Table) (m : Nat) (ops0 : Nat) : Nat :=
  selReady1 fuel t m ops0 ||| selReady2 fuel t m ops0

def uds_select (fuel : Nat) (t : Table) (minor : Int) (ops0 : Nat)
    (endpt : Int) : Int × Table :=
  if minor < 0 ∨ (NR_FDS : Int) ≤ minor then ( ENXIO, t)
  else if (t minor.toNat).state ≠ UDS_INUSE then (EINVAL, t)
  else
    ((selReady fuel t minor.toNat ops0 : Int),
     if selOps ops0 &&& (7 ^^^ selReady fuel t minor.toNat ops0) ≠ 0 ∧
         ops0 &&& CDEV_NOTIFY ≠ 0 then
       upd (selT2 fuel t minor.toNat ops0) minor.toNat (fun f =>
         { f with sel_endpt := endpt, sel_ops := f.sel_ops |||
             (selOps ops0 &&& (7 ^^^ selReady fuel t minor.toNat ops0)) })
     else selT2 fuel t minor.toNat ops0)

def w6Recv : UdsFd := { emptyFd with
  state := 1, mode := 3, type := SOCK_DGRAM,
  addr_family := AF_UNIX, addr_path := 121 :: List.replicate 103 0,
  pos := 0, size := 3 }

def w6Send : UdsFd := { emptyFd with
  state := 1, mode := 3, type := SOCK_DGRAM,
  target_family := AF_UNIX, target_path := 121 :: List.replicate 103 0 }

def w6 : Table := upd (upd initTable 1 fun _ => w6Send) 2 fun _ => w6Recv

def w9A : UdsFd := { emptyFd with state := 1, mode := 3, type := SOCK_STREAM, peer := 2 }
def w9B : UdsFd := { emptyFd with state := 1, mode := 3, type := SOCK_STREAM, peer := 1 }
def w9 : Table := upd (upd initTable 1 fun _ => w9A) 2 fun _ => w9B

def w10 : Table := (uds_open initTable 55).2

/-- The success condition of `uds_cancel`: handle in range, slot in use,
slot suspended, and the saved `(endpt, id)` pair matches. -/
def cancelMatch (st : Table) (minor endpt id : Int) : Prop :=
  0 ≤ minor ∧ minor < (NR_FDS : Int) ∧ (st minor.toNat).state = UDS_INUSE ∧
  (st minor.toNat).suspended ≠ UDS_NOT_SUSPENDED ∧
  (st minor.toNat).susp_endpt = endpt ∧ (st minor.toNat).susp_id = id

def w5A : UdsFd := { emptyFd with state := 1, mode := 3, type := SOCK_STREAM, peer := 2 }
def w5B : UdsFd := { emptyFd with state := 1, mode := 3, type := SOCK_STREAM, peer := 1 }
def w5 : Table := upd (upd initTable 1 fun _ => w5A) 2 fun _ => w5B

def w7 : Table := (uds_read 1 (uds_open initTable 55).2 (1 : Int) 10 20 8 0 77).2.2

/-- The bytes currently stored in a ring buffer: `s` bytes starting at
offset `p`, wrapping modulo `UDS_BUF`. -/
def ringContents (buf : Nat → Nat) (p s : Nat) : List Nat :=
  (List.range s).map fun i => buf ((p + i) % UDS_BUF)

/-- The bytes currently buffered in a slot. -/
def contents (f : UdsFd) : List Nat := ringContents f.buf f.pos f.size

/-- Equality of two slots on everything except the select registration and
the saved suspension parameters. -/
def eqNoSel (x y : UdsFd) : Prop :=
  x.state = y.state ∧ x.mode = y.mode ∧ x.type = y.type ∧ x.peer = y.peer ∧
  x.suspended = y.suspended ∧ x.size = y.size ∧ x.pos = y.pos ∧
  x.buf = y.buf ∧ x.err = y.err

/-- The effect of a successful drain of `m` bytes from slot `B` on the
table: `B`'s tail advances (resetting to 0 when the buffer empties), its
buffer bytes and all other fields stay, and every other slot changes at
most its select registration. -/
def ReadPost (st : Table) (B m : Nat) (T : Table) : Prop :=
  (T B).buf = (st B).buf ∧
  (T B).pos = (if (st B).size - m = 0 then 0 else ((st B).pos + m) % UDS_BUF) ∧
  (T B).size = (st B).size - m ∧
  (T B).state = (st B).state ∧
  (T B).mode = (st B).mode ∧
  (T B).type = (st B).type ∧
  (T B).peer = (st B).peer ∧
  (T B).suspended = (st B).suspended ∧
  (T B).err = (st B).err ∧
  ∀ j, j ≠ B → eqNoSel (T j) (st j)

def c1A : UdsFd := { emptyFd with state := 1, mode := 3, type := SOCK_SEQPACKET, peer := 2 }
def c1B : UdsFd := { emptyFd with state := 1, mode := 3, type := SOCK_SEQPACKET, peer := 1 }
def c1 : Table := upd (upd initTable 1 fun _ => c1A) 2 fun _ => c1B

def wc1A : UdsFd := { emptyFd with state := 1, mode := 3, type := SOCK_SEQPACKET, peer := 2 }
def wc1B : UdsFd := { emptyFd with state := 1, mode := 3, type := SOCK_SEQPACKET, peer := 1 }
def wc1 : Table := upd (upd initTable 1 fun _ => wc1A) 2 fun _ => wc1B

def c3Path : List Nat := 120 :: List.replicate 103 0
def c3Slot : UdsFd := { emptyFd with
  state := 1, mode := 3, type := SOCK_DGRAM, peer := -1,
  addr_family := AF_UNIX, addr_path := c3Path,
  target_family := AF_UNIX, target_path := c3Path }
def c3 : Table := upd initTable 1 fun _ => c3Slot

def wc3Path : List Nat := 122 :: List.replicate 103 0
def wc3Send : UdsFd := { emptyFd with
  state := 1, mode := 3, type := SOCK_DGRAM,
  target_family := AF_UNIX, target_path := wc3Path }
def wc3Recv : UdsFd := { emptyFd with
  state := 1, mode := 3, type := SOCK_DGRAM,
  addr_family := AF_UNIX, addr_path := wc3Path }
def wc3 : Table := upd (upd initTable 1 fun _ => wc3Send) 2 fun _ => wc3Recv

/-- The invariant of the STREAM round-trip argument: a quiescent connected
stream pair `A`-`B` whose receiver currently buffers exactly the byte list
`bs`. -/
def StreamPair (A B : Nat) (t : Table) (bs : List Nat) : Prop :=
  (t A).type = SOCK_STREAM ∧
  (t A).mode &&& UDS_W ≠ 0 ∧
  (t B).mode &&& UDS_R ≠ 0 ∧
  (t A).peer = (B : Int) ∧
  (t B).peer = (A : Int) ∧
  (t A).suspended ≠ UDS_SUSPENDED_WRITE ∧
  (t B).suspended ≠ UDS_SUSPENDED_READ ∧
  (t B).size = bs.length ∧
  (t B).pos < UDS_BUF ∧
  bs.length ≤ UDS_BUF ∧
  ringContents (t B).buf (t B).pos (t B).size = bs

/-- A sequence of writes on handle `h`, each of its full data. -/
def writeSeq (fuel : Nat) (h : Nat) : Table → List (List Nat) → Table
  | t, [] => t
  | t, w :: ws => writeSeq fuel h (uds_perform_write fuel t h w w.length false).2 ws

/-- A sequence of reads on handle `h` with the given request sizes,
returning the concatenation of the delivered bytes. -/
def readSeq (fuel : Nat) (h : Nat) : Table → List Nat → List Nat × Table
  | t, [] => ([], t)
  | t, r :: rs =>
    let res := uds_perform_read fuel t h r false
    let rest := readSeq fuel h res.2.2 rs
    (res.2.1 ++ rest.1, rest.2)

def wc2A : UdsFd := { emptyFd with state := 1, mode := 3, type := SOCK_STREAM, peer := 2 }
def wc2B : UdsFd := { emptyFd with
  state := 1, mode := 3, type := SOCK_STREAM, peer := 1, pos := 126, size := 0 }
def wc2 : Table := upd (upd initTable 1 fun _ => wc2A) 2 fun _ => wc2B

/-- The buffer invariant of the spec (§8.1): for every in-use slot,
`size ≤ B`, `pos < B`, and an empty buffer has its tail reset to 0. -/
def BufInv (t : Table) : Prop :=
  ∀ i, i < NR_FDS → (t i).state = UDS_INUSE →
    (t i).size ≤ UDS_BUF ∧ (t i).pos < UDS_BUF ∧
    ((t i).size = 0 → (t i).pos = 0)

theorem upd_self (t : Table) (i : Nat) (f : UdsFd → UdsFd) :
    upd t i f i = f (t i) := by
  simp [upd]

theorem upd_ne (t : Table) (i : Nat) (f : UdsFd → UdsFd) (j : Nat)
    (h : j ≠ i) : upd t i f j = t j := by
  simp [upd, h]

/-! ### General helper lemmas -/

theorem upd_upd_same (t : Table) (i : Nat) (f g : UdsFd → UdsFd) :
    upd (upd t i f) i g = upd t i fun x => g (f x) := by
  funext j
  by_cases h : j = i <;> simp [upd, h]

theorem natCast_ne_negOne (n : Nat) : (n : Int) ≠ -1 := by omega

theorem toNat_natCast_eq (n : Nat) : ((n : Int)).toNat = n := Int.toNat_natCast n

/-- `uds_reset` on a slot that is not suspended: disconnect, set the sticky
error, clear any select registration. -/
theorem uds_reset_eq_of_not_suspended (fuel : Nat) (st : Table) (A : Nat)
    (hsusp : (st A).suspended = UDS_NOT_SUSPENDED) :
    uds_reset fuel st A =
      upd st A fun f => { f with peer := -1, err := ECONNRESET, sel_ops := 0 } := by
  unfold uds_reset resetT2 resetT1
  simp only [upd_self, hsusp, ne_eq, not_true_eq_false, if_false]
  by_cases hsel : (st A).sel_ops = 0
  · simp only [hsel, not_false_eq_true, not_true_eq_false, if_false]
    funext j
    by_cases hj : j = A
    · subst hj
      rw [upd_self, upd_self]
      simp [hsel]
    · rw [upd_ne _ _ _ _ hj, upd_ne _ _ _ _ hj]
  · simp only [hsel, not_false_eq_true, if_true]
    rw [upd_upd_same]

/-! ### C6: DGRAM write into a non-empty receiver buffer -/

/-- C6.  A DGRAM write of `0 < s ≤ B` bytes whose address scan resolves to a
receiver `d` with open read-half and non-empty buffer returns `s` and leaves
the whole table — in particular slot `d` — unchanged. -/
theorem dgram_drop_returns_size (fuel : Nat) (st : Table) (h d : Nat)
    (data : List Nat) (s : Nat)
    (hW : (st h).mode &&& UDS_W ≠ 0)
    (hty : (st h).type = SOCK_DGRAM)
    (hs0 : 0 < s) (hsB : s ≤ UDS_BUF)
    (hscan : dgramScan st h = some d)
    (hR : (st d).mode &&& UDS_R ≠ 0)
    (hne : 0 < (st d).size) :
    uds_perform_write fuel st h data s false = ((s : Int), st) := by
  have hs0' : s ≠ 0 := Nat.pos_iff_ne_zero.mp hs0
  have hnotlt : ¬ (UDS_BUF < s) := Nat.not_lt.mpr hsB
  unfold uds_perform_write performWriteCore
  simp only [hs0', hW, hnotlt, hty, hscan, SOCK_DGRAM, SOCK_STREAM, SOCK_SEQPACKET,
    if_false, false_and, if_neg, ne_eq, not_false_eq_true, ite_false, ite_true,
    reduceCtorEq]
  norm_num [writeToCore, hR, hne, hty, SOCK_DGRAM]

theorem dgram_drop_returns_size_witness :
    uds_perform_write 1 w6 1 [7] 1 false = ((1 : Int), w6) :=
  dgram_drop_returns_size 1 w6 1 2 [7] 1 (by decide) (by decide) (by decide)
    (by decide) (by decide) (by decide) (by decide)

/-! ### Shared lemmas about the blocked-read path -/

theorem in_range_guard (A : Nat) (hA : A < NR_FDS) :
    ¬ ((A : Int) < 0 ∨ (NR_FDS : Int) ≤ (A : Int)) := by omega

/-- A non-pretend read of `r > 0` bytes from an empty buffer suspends
(returns the deferred-reply marker, table unchanged) when either the socket
has no peer and is not connection-oriented, or it has a peer whose write
half is open and which is not itself blocked on a write. -/
theorem perform_read_empty_suspends (fuel : Nat) (t : Table) (m r : Nat)
    (hr : r ≠ 0) (hmode : (t m).mode &&& UDS_R ≠ 0) (hsz : (t m).size = 0)
    (hcase :
      ((t m).peer = -1 ∧ (t m).type ≠ SOCK_STREAM ∧ (t m).type ≠ SOCK_SEQPACKET) ∨
      ((t m).peer ≠ -1 ∧ (t (t m).peer.toNat).mode &&& UDS_W ≠ 0 ∧
        (t (t m).peer.toNat).suspended ≠ UDS_SUSPENDED_WRITE)) :
    uds_perform_read fuel t m r false = (EDONTREPLY, [], t) := by
  unfold uds_perform_read performReadCore
  rcases hcase with ⟨hp, ht1, ht2⟩ | ⟨hp, hw, hs⟩
  · simp [hr, hmode, hsz, hp, ht1, ht2]
  · simp [hr, hmode, hsz, hp, hw, hs]

/-- A read that surfaces the deferred-reply marker and is allowed to block
records the suspension. -/
theorem uds_read_blocked_block (fuel : Nat) (t : Table) (A : Nat)
    (e g id : Int) (r flags : Nat)
    (hA : A < NR_FDS) (hst : (t A).state = UDS_INUSE)
    (hperf : uds_perform_read fuel t A r false = (EDONTREPLY, [], t))
    (hnb : flags &&& CDEV_NONBLOCK = 0) :
    uds_read fuel t (A : Int) e g r flags id =
      (EDONTREPLY, [], upd t A fun f =>
        { f with suspended := UDS_SUSPENDED_READ, susp_endpt := e,
                 susp_grant := g, susp_size := r, susp_id := id }) := by
  unfold uds_read readSusp
  rw [if_neg (in_range_guard A hA)]
  simp only [toNat_natCast_eq]
  rw [if_neg (not_not_intro hst)]
  simp only [hperf]
  norm_num [hnb]

/-- A read that surfaces the deferred-reply marker under `CDEV_NONBLOCK`
immediately cancels its own suspension and returns `EAGAIN`. -/
theorem uds_read_blocked_nonblock (fuel : Nat) (t : Table) (A : Nat)
    (e g id : Int) (r flags : Nat)
    (hA : A < NR_FDS) (hst : (t A).state = UDS_INUSE)
    (hperf : uds_perform_read fuel t A r false = (EDONTREPLY, [], t))
    (hnb : flags &&& CDEV_NONBLOCK ≠ 0) :
    uds_read fuel t (A : Int) e g r flags id =
      (EAGAIN, [], upd t A fun f =>
        { f with suspended := UDS_NOT_SUSPENDED, susp_endpt := e,
                 susp_grant := g, susp_size := r, susp_id := id }) := by
  unfold uds_read readSusp
  rw [if_neg (in_range_guard A hA)]
  simp only [toNat_natCast_eq]
  rw [if_neg (not_not_intro hst)]
  simp only [hperf]
  norm_num [hnb]
  unfold uds_cancel
  rw [if_neg (in_range_guard A hA)]
  simp only [toNat_natCast_eq, upd_self]
  norm_num [hst, UDS_SUSPENDED_READ, UDS_NOT_SUSPENDED, UDS_SUSPENDED_ACCEPT,
    UDS_SUSPENDED_CONNECT, UDS_SUSPENDED_WRITE]
  rw [upd_upd_same]

/-- A read whose inner `uds_perform_read` completes (no deferred reply) just
returns that result. -/
theorem uds_read_of_perform (fuel : Nat) (t : Table) (A : Nat)
    (e g id : Int) (r flags : Nat) (res : Int × List Nat × Table)
    (hA : A < NR_FDS) (hst : (t A).state = UDS_INUSE)
    (hperf : uds_perform_read fuel t A r false = res)
    (hres : res.1 ≠ EDONTREPLY) :
    uds_read fuel t (A : Int) e g r flags id = res := by
  unfold uds_read
  rw [if_neg (in_range_guard A hA)]
  simp only [toNat_natCast_eq]
  rw [if_neg (not_not_intro hst)]
  simp only [hperf]
  rw [if_neg hres]

/-! ### C9: non-blocking read on an empty connected socket -/

/-- C9.  On a connected socket with empty buffer, open read-half, peer
write-half open (and, as the reachable states guarantee, the peer not
blocked on a write), a non-blocking read of `r > 0` bytes returns
`EAGAIN`, and afterwards the slot is not suspended. -/
theorem nonblock_read_eagain (fuel : Nat) (st : Table) (A : Nat)
    (e g id : Int) (r flags : Nat)
    (hA : A < NR_FDS)
    (hst : (st A).state = UDS_INUSE)
    (hsz : (st A).size = 0)
    (hmode : (st A).mode &&& UDS_R ≠ 0)
    (hpeer : (st A).peer ≠ -1)
    (hpW : (st (st A).peer.toNat).mode &&& UDS_W ≠ 0)
    (hpS : (st (st A).peer.toNat).suspended ≠ UDS_SUSPENDED_WRITE)
    (hr : 0 < r)
    (hnb : flags &&& CDEV_NONBLOCK ≠ 0) :
    (uds_read fuel st (A : Int) e g r flags id).1 = EAGAIN ∧
    ((uds_read fuel st (A : Int) e g r flags id).2.2 A).suspended =
      UDS_NOT_SUSPENDED := by
  have hperf := perform_read_empty_suspends fuel st A r (Nat.pos_iff_ne_zero.mp hr)
    hmode hsz (Or.inr ⟨hpeer, hpW, hpS⟩)
  rw [uds_read_blocked_nonblock fuel st A e g id r flags hA hst hperf hnb]
  exact ⟨rfl, by simp [upd_self]⟩

theorem nonblock_read_eagain_witness :
    (uds_read 1 w9 (1 : Int) 10 20 8 CDEV_NONBLOCK 77).1 = EAGAIN ∧
    ((uds_read 1 w9 (1 : Int) 10 20 8 CDEV_NONBLOCK 77).2.2 1).suspended =
      UDS_NOT_SUSPENDED :=
  nonblock_read_eagain 1 w9 1 10 20 77 8 CDEV_NONBLOCK (by decide) (by decide)
    (by decide) (by decide) (by decide) (by decide) (by decide) (by decide)
    (by decide)

/-! ### C10: read on a socket whose type was never assigned -/

/-- C10.  A socket that was opened but never given a type (its `type` is
none of STREAM, SEQPACKET, DGRAM), with empty buffer and no peer, is
treated by the read path like a datagram socket: a blocking read of
`r > 0` bytes suspends the caller (deferred reply, suspension recorded)
rather than failing with `ENOTCONN`, and a non-blocking read returns
`EAGAIN`. -/
theorem unset_type_read_blocks (fuel : Nat) (st : Table) (A : Nat)
    (e g id : Int) (r : Nat)
    (hA : A < NR_FDS) (hst : (st A).state = UDS_INUSE)
    (ht1 : (st A).type ≠ SOCK_STREAM) (ht2 : (st A).type ≠ SOCK_SEQPACKET)
    (ht3 : (st A).type ≠ SOCK_DGRAM)
    (hsz : (st A).size = 0) (hmode : (st A).mode &&& UDS_R ≠ 0)
    (hpeer : (st A).peer = -1) (hr : 0 < r) :
    ((uds_read fuel st (A : Int) e g r 0 id).1 = EDONTREPLY ∧
      ((uds_read fuel st (A : Int) e g r 0 id).2.2 A).suspended =
        UDS_SUSPENDED_READ) ∧
    (uds_read fuel st (A : Int) e g r CDEV_NONBLOCK id).1 = EAGAIN ∧
    ((uds_read fuel st (A : Int) e g r CDEV_NONBLOCK id).2.2 A).suspended =
      UDS_NOT_SUSPENDED := by
  have hperf := perform_read_empty_suspends fuel st A r (Nat.pos_iff_ne_zero.mp hr)
    hmode hsz (Or.inl ⟨hpeer, ht1, ht2⟩)
  refine ⟨?_, ?_, ?_⟩
  · rw [uds_read_blocked_block fuel st A e g id r 0 hA hst hperf (by decide)]
    exact ⟨rfl, by simp [upd_self]⟩
  · rw [uds_read_blocked_nonblock fuel st A e g id r CDEV_NONBLOCK hA hst hperf
      (by decide)]
  · rw [uds_read_blocked_nonblock fuel st A e g id r CDEV_NONBLOCK hA hst hperf
      (by decide)]
    simp [upd_self]

theorem unset_type_read_blocks_witness :
    ((uds_read 1 w10 (1 : Int) 10 20 8 0 77).1 = EDONTREPLY ∧
      ((uds_read 1 w10 (1 : Int) 10 20 8 0 77).2.2 1).suspended =
        UDS_SUSPENDED_READ) ∧
    (uds_read 1 w10 (1 : Int) 10 20 8 CDEV_NONBLOCK 77).1 = EAGAIN ∧
    ((uds_read 1 w10 (1 : Int) 10 20 8 CDEV_NONBLOCK 77).2.2 1).suspended =
      UDS_NOT_SUSPENDED :=
  unset_type_read_blocks 1 w10 1 10 20 77 8 (by decide) (by decide) (by decide)
    (by decide) (by decide) (by decide) (by decide) (by decide) (by decide)

/-! ### C7: characterization of uds_cancel -/

/-- C7.  `uds_cancel(h, endpt, id)` returns `EINTR` and clears the slot's
suspension exactly when the handle is in range, the slot is in use and
suspended, and the saved requester identity matches; in every other case it
returns the no-reply marker with the table unchanged.  (The hypothesis
`suspended ≤ 4` states that the suspension field holds one of the five
values the driver ever assigns.) -/
theorem uds_cancel_characterization (st : Table) (minor endpt id : Int)
    (hs : (st minor.toNat).suspended ≤ 4) :
    (cancelMatch st minor endpt id →
      (uds_cancel st minor endpt id).1 = EINTR ∧
      ((uds_cancel st minor endpt id).2 minor.toNat).suspended =
        UDS_NOT_SUSPENDED) ∧
    (¬ cancelMatch st minor endpt id →
      uds_cancel st minor endpt id = (EDONTREPLY, st)) := by
  constructor
  · rintro ⟨h0, hN, hst, hsusp, hep, hid⟩
    have hrange : ¬ (minor < 0 ∨ (NR_FDS : Int) ≤ minor) := by omega
    unfold uds_cancel
    simp only [hrange, if_false, hst, ne_eq, not_true_eq_false, ite_false,
      hsusp, hep, hid, not_false_eq_true, false_or, or_self, or_false]
    by_cases h4 : (st minor.toNat).suspended = UDS_SUSPENDED_ACCEPT
    · simp only [h4, ite_true, if_true]
      exact ⟨by simp, by simp [upd_self]⟩
    · have h123 : (st minor.toNat).suspended = UDS_SUSPENDED_CONNECT ∨
          (st minor.toNat).suspended = UDS_SUSPENDED_READ ∨
          (st minor.toNat).suspended = UDS_SUSPENDED_WRITE := by
        simp only [UDS_SUSPENDED_ACCEPT, UDS_SUSPENDED_CONNECT,
          UDS_SUSPENDED_READ, UDS_SUSPENDED_WRITE, UDS_NOT_SUSPENDED] at *
        omega
      simp only [h4, ite_false, h123, ite_true, if_false, if_true]
      exact ⟨by simp, by simp [upd_self]⟩
  · intro hnc
    unfold uds_cancel
    by_cases hrange : minor < 0 ∨ (NR_FDS : Int) ≤ minor
    · simp [hrange]
    · by_cases hst : (st minor.toNat).state = UDS_INUSE
      · have hfail : (st minor.toNat).suspended = UDS_NOT_SUSPENDED ∨
            (st minor.toNat).susp_endpt ≠ endpt ∨
            (st minor.toNat).susp_id ≠ id := by
          by_contra hc
          push_neg at hc
          exact hnc ⟨by omega, by omega, hst, hc.1, hc.2.1, hc.2.2⟩
        simp [hrange, hst, hfail]
      · simp [hrange, hst]

/-! ### C5: close of the peer propagates a consumable CONNRESET -/

/-- Reading a disconnected connection-oriented socket with the sticky
`ECONNRESET` set consumes the sticky error and returns it. -/
theorem perform_read_connreset (fuel : Nat) (t : Table) (m r : Nat)
    (hr : r ≠ 0) (hmode : (t m).mode &&& UDS_R ≠ 0) (hsz : (t m).size = 0)
    (hpeer : (t m).peer = -1)
    (hty : (t m).type = SOCK_STREAM ∨ (t m).type = SOCK_SEQPACKET)
    (herr : (t m).err = ECONNRESET) :
    uds_perform_read fuel t m r false =
      (ECONNRESET, [], upd t m fun f => { f with err := 0 }) := by
  unfold uds_perform_read performReadCore
  simp [hr, hmode, hsz, hpeer, hty, herr]

/-- Reading a disconnected connection-oriented socket without a sticky
error fails with `ENOTCONN`. -/
theorem perform_read_notconn (fuel : Nat) (t : Table) (m r : Nat)
    (hr : r ≠ 0) (hmode : (t m).mode &&& UDS_R ≠ 0) (hsz : (t m).size = 0)
    (hpeer : (t m).peer = -1)
    (hty : (t m).type = SOCK_STREAM ∨ (t m).type = SOCK_SEQPACKET)
    (herr : (t m).err ≠ ECONNRESET) :
    uds_perform_read fuel t m r false = (ENOTCONN, [], t) := by
  unfold uds_perform_read performReadCore
  simp [hr, hmode, hsz, hpeer, hty, herr]

/-- C5.  For a connected STREAM pair `A`-`B` where `A` is quiescent with an
empty buffer: `close(B)` returns OK; the first subsequent read on `A` with
`r1 > 0` returns `ECONNRESET` (consuming the sticky error); a second read
with `r2 > 0` returns `ENOTCONN`. -/
theorem close_propagates_connreset (fuel : Nat) (st : Table) (A B : Nat)
    (e1 g1 id1 e2 g2 id2 : Int) (r1 r2 fl1 fl2 : Nat)
    (hA : A < NR_FDS) (hB : B < NR_FDS) (hAB : A ≠ B)
    (hstA : (st A).state = UDS_INUSE) (hstB : (st B).state = UDS_INUSE)
    (hpA : (st A).peer = (B : Int)) (hpB : (st B).peer = (A : Int))
    (htyA : (st A).type = SOCK_STREAM)
    (hszA : (st A).size = 0)
    (hmA : (st A).mode &&& UDS_R ≠ 0)
    (hsuspA : (st A).suspended = UDS_NOT_SUSPENDED)
    (hr1 : 0 < r1) (hr2 : 0 < r2) :
    (uds_close fuel st (B : Int)).1 = OK ∧
    (uds_read fuel (uds_close fuel st (B : Int)).2 (A : Int)
      e1 g1 r1 fl1 id1).1 = ECONNRESET ∧
    (uds_read fuel
      (uds_read fuel (uds_close fuel st (B : Int)).2 (A : Int)
        e1 g1 r1 fl1 id1).2.2 (A : Int) e2 g2 r2 fl2 id2).1 = ENOTCONN := by
  have hclose : uds_close fuel st (B : Int) =
      (OK, upd (uds_reset fuel st A) B fun _ => emptyFd) := by
    unfold uds_close
    rw [if_neg (in_range_guard B hB)]
    simp only [toNat_natCast_eq]
    rw [if_neg (not_not_intro hstB)]
    rw [hpB]
    simp only [toNat_natCast_eq]
    rw [if_neg (by
      rintro ⟨-, h⟩
      rw [hpA] at h
      exact natCast_ne_negOne B h)]
    rw [if_pos (natCast_ne_negOne A)]
  set st1 := (uds_close fuel st (B : Int)).2 with hst1def
  have hst1A : st1 A = { st A with peer := -1, err := ECONNRESET, sel_ops := 0 } := by
    rw [hst1def, hclose]
    show (upd (uds_reset fuel st A) B fun _ => emptyFd) A = _
    rw [upd_ne _ _ _ _ hAB, uds_reset_eq_of_not_suspended fuel st A hsuspA, upd_self]
  have hread1 : uds_perform_read fuel st1 A r1 false =
      (ECONNRESET, [], upd st1 A fun f => { f with err := 0 }) := by
    refine perform_read_connreset fuel st1 A r1 (Nat.pos_iff_ne_zero.mp hr1) ?_ ?_ ?_ ?_ ?_
    · rw [hst1A]; exact hmA
    · rw [hst1A]; exact hszA
    · rw [hst1A]
    · rw [hst1A]; exact Or.inl htyA
    · rw [hst1A]
  have hw1 : uds_read fuel st1 (A : Int) e1 g1 r1 fl1 id1 =
      (ECONNRESET, [], upd st1 A fun f => { f with err := 0 }) := by
    refine uds_read_of_perform fuel st1 A e1 g1 id1 r1 fl1
      (ECONNRESET, [], upd st1 A fun f => { f with err := 0 }) hA ?_ hread1
      (by show ECONNRESET ≠ EDONTREPLY; decide)
    rw [hst1A]; exact hstA
  set st2 := upd st1 A fun f => { f with err := 0 } with hst2def
  have hst2A : st2 A = { st A with peer := -1, err := 0, sel_ops := 0 } := by
    rw [hst2def, upd_self, hst1A]
  have hread2 : uds_perform_read fuel st2 A r2 false = (ENOTCONN, [], st2) := by
    refine perform_read_notconn fuel st2 A r2 (Nat.pos_iff_ne_zero.mp hr2) ?_ ?_ ?_ ?_ ?_
    · rw [hst2A]; exact hmA
    · rw [hst2A]; exact hszA
    · rw [hst2A]
    · rw [hst2A]; exact Or.inl htyA
    · rw [hst2A]
      show (0 : Int) ≠ ECONNRESET
      decide
  have hw2 : uds_read fuel st2 (A : Int) e2 g2 r2 fl2 id2 = (ENOTCONN, [], st2) := by
    refine uds_read_of_perform fuel st2 A e2 g2 id2 r2 fl2 (ENOTCONN, [], st2) hA
      ?_ hread2 (by show ENOTCONN ≠ EDONTREPLY; decide)
    rw [hst2A]; exact hstA
  refine ⟨by rw [hclose], by rw [hw1], ?_⟩
  rw [hw1]
  show (uds_read fuel st2 (A : Int) e2 g2 r2 fl2 id2).1 = ENOTCONN
  rw [hw2]

theorem close_propagates_connreset_witness :
    (uds_close 1 w5 (2 : Int)).1 = OK ∧
    (uds_read 1 (uds_close 1 w5 (2 : Int)).2 (1 : Int) 10 20 8 0 77).1 =
      ECONNRESET ∧
    (uds_read 1 (uds_read 1 (uds_close 1 w5 (2 : Int)).2 (1 : Int)
      10 20 8 0 77).2.2 (1 : Int) 11 21 8 0 78).1 = ENOTCONN :=
  close_propagates_connreset 1 w5 1 2 10 20 77 11 21 78 8 8 0 0 (by decide)
    (by decide) (by decide) (by decide) (by decide) (by decide) (by decide)
    (by decide) (by decide) (by decide) (by decide) (by decide) (by decide)

theorem uds_cancel_characterization_witness :
    ((uds_cancel w7 1 10 77).1 = EINTR ∧
      ((uds_cancel w7 1 10 77).2 (1 : Int).toNat).suspended =
        UDS_NOT_SUSPENDED) ∧
    uds_cancel w7 1 10 78 = (EDONTREPLY, w7) := by
  constructor
  · exact (uds_cancel_characterization w7 1 10 77 (by decide)).1
      ⟨by decide, by decide, by decide, by decide, by decide, by decide⟩
  · exact (uds_cancel_characterization w7 1 10 78 (by decide)).2
      (fun h => absurd h.2.2.2.2.2 (by decide))

/-! ### Ring buffer arithmetic -/

theorem getD_take (l : List Nat) (n k : Nat) (h : k < n) :
    (l.take n).getD k 0 = l.getD k 0 := by
  simp only [List.getD_eq_getElem?_getD, List.getElem?_take_of_lt h]

theorem getD_drop (l : List Nat) (n k : Nat) :
    (l.drop n).getD k 0 = l.getD (n + k) 0 := by
  simp only [List.getD_eq_getElem?_getD, List.getElem?_drop]

theorem getD_eq_getElem (l : List Nat) (k : Nat) (h : k < l.length) :
    l.getD k 0 = l[k] := by
  simp only [List.getD_eq_getElem?_getD, List.getElem?_eq_getElem h,
    Option.getD_some]

/-- Pointwise description of the two-segment deposit: the wrapped second
segment takes precedence (it is copied last), then the first segment, then
the old buffer contents. -/
theorem ringDeposit_apply (buf : Nat → Nat) (h : Nat) (d : List Nat) (j : Nat) :
    ringDeposit buf h d j =
      if j < d.length - min (UDS_BUF - h) d.length then
        d.getD (min (UDS_BUF - h) d.length + j) 0
      else if h ≤ j ∧ j < h + min (UDS_BUF - h) d.length then
        d.getD (j - h) 0
      else buf j := by
  have hsub : min (UDS_BUF - h) d.length ≤ d.length := Nat.min_le_right _ _
  simp only [ringDeposit]
  by_cases hlt : min (UDS_BUF - h) d.length < d.length
  · simp only [hlt, if_true, blit, List.length_take, List.length_drop]
    by_cases hj1 : j < d.length - min (UDS_BUF - h) d.length
    · rw [if_pos (by omega :
        0 ≤ j ∧ j < 0 + (d.length - min (UDS_BUF - h) d.length))]
      rw [if_pos hj1]
      simp only [Nat.sub_zero, getD_drop]
    · rw [if_neg (by omega :
        ¬ (0 ≤ j ∧ j < 0 + (d.length - min (UDS_BUF - h) d.length)))]
      rw [if_neg hj1]
      by_cases hj2 : h ≤ j ∧ j < h + min (UDS_BUF - h) d.length
      · rw [if_pos (by omega :
          h ≤ j ∧ j < h + min (min (UDS_BUF - h) d.length) d.length)]
        rw [if_pos hj2]
        exact getD_take d _ (j - h) (by omega)
      · rw [if_neg (by omega :
          ¬ (h ≤ j ∧ j < h + min (min (UDS_BUF - h) d.length) d.length))]
        rw [if_neg hj2]
  · simp only [hlt, if_false, blit, List.length_take]
    rw [if_neg (by omega : ¬ j < d.length - min (UDS_BUF - h) d.length)]
    by_cases hj2 : h ≤ j ∧ j < h + min (UDS_BUF - h) d.length
    · rw [if_pos (by omega :
        h ≤ j ∧ j < h + min (min (UDS_BUF - h) d.length) d.length)]
      rw [if_pos hj2]
      exact getD_take d _ (j - h) (by omega)
    · rw [if_neg (by omega :
        ¬ (h ≤ j ∧ j < h + min (min (UDS_BUF - h) d.length) d.length))]
      rw [if_neg hj2]

/-- A deposit at the head of the ring leaves the stored bytes untouched. -/
theorem ringDeposit_get_old (buf : Nat → Nat) (p s : Nat) (d : List Nat)
    (hp : p < UDS_BUF) (hs : s + d.length ≤ UDS_BUF) (i : Nat) (hi : i < s) :
    ringDeposit buf ((p + s) % UDS_BUF) d ((p + i) % UDS_BUF) =
      buf ((p + i) % UDS_BUF) := by
  rw [ringDeposit_apply]
  simp only [UDS_BUF] at *
  rw [if_neg (by omega), if_neg (by omega)]

/-- A deposit at the head of the ring stores the new bytes in order right
after the stored ones. -/
theorem ringDeposit_get_new (buf : Nat → Nat) (p s : Nat) (d : List Nat)
    (hp : p < UDS_BUF) (hs : s + d.length ≤ UDS_BUF) (i : Nat)
    (hi : i < d.length) :
    ringDeposit buf ((p + s) % UDS_BUF) d ((p + s + i) % UDS_BUF) =
      d.getD i 0 := by
  rw [ringDeposit_apply]
  simp only [UDS_BUF] at *
  by_cases hc1 : (p + s + i) % 128 <
      d.length - min (128 - (p + s) % 128) d.length
  · rw [if_pos hc1]
    congr 1
    omega
  · rw [if_neg hc1, if_pos (by omega)]
    congr 1
    omega

theorem ringContents_length (buf : Nat → Nat) (p s : Nat) :
    (ringContents buf p s).length = s := by
  simp [ringContents]


theorem ringExtract_length (buf : Nat → Nat) (p n : Nat) :
    (ringExtract buf p n).length = n := by
  simp only [ringExtract]
  split
  · simp only [List.length_append, seg, List.length_map, List.length_range]
    omega
  · simp only [seg, List.length_map, List.length_range]
    omega

/-- The two-segment extraction returns exactly the wrapped contents. -/
theorem ringExtract_eq (buf : Nat → Nat) (p n : Nat)
    (hp : p < UDS_BUF) (hn : n ≤ UDS_BUF) :
    ringExtract buf p n = ringContents buf p n := by
  apply List.ext_getElem
  · rw [ringExtract_length, ringContents_length]
  · intro i h1 h2
    have hi : i < n := by rwa [ringContents_length] at h2
    simp only [ringContents, List.getElem_map, List.getElem_range]
    simp only [ringExtract] at h1 ⊢
    by_cases hw : min (UDS_BUF - p) n < n
    · simp only [hw, if_true] at h1 ⊢
      by_cases hseg : i < min (UDS_BUF - p) n
      · rw [List.getElem_append_left
          (by simp only [seg, List.length_map, List.length_range]; exact hseg)]
        simp only [seg, List.getElem_map, List.getElem_range]
        congr 1
        simp only [UDS_BUF] at *
        omega
      · rw [List.getElem_append_right
          (by simp only [seg, List.length_map, List.length_range]; omega)]
        simp only [seg, List.getElem_map, List.getElem_range, List.length_map,
          List.length_range]
        congr 1
        simp only [UDS_BUF] at *
        omega
    · simp only [hw, if_false] at h1 ⊢
      simp only [seg, List.getElem_map, List.getElem_range]
      congr 1
      simp only [UDS_BUF] at *
      omega

/-- Depositing `d` at the head appends `d` to the contents. -/
theorem ringContents_deposit (buf : Nat → Nat) (p s : Nat) (d : List Nat)
    (hp : p < UDS_BUF) (hs : s + d.length ≤ UDS_BUF) :
    ringContents (ringDeposit buf ((p + s) % UDS_BUF) d) p (s + d.length) =
      ringContents buf p s ++ d := by
  apply List.ext_getElem
  · simp [ringContents]
  · intro i h1 h2
    have hi : i < s + d.length := by
      simpa [ringContents] using h1
    simp only [ringContents, List.getElem_map, List.getElem_range]
    by_cases his : i < s
    · rw [List.getElem_append_left (by simpa [ringContents] using his)]
      rw [ringDeposit_get_old buf p s d hp hs i his]
      simp [ringContents]
    · rw [List.getElem_append_right (by simpa [ringContents] using his)]
      have hrw : p + i = p + s + (i - s) := by omega
      rw [hrw, ringDeposit_get_new buf p s d hp hs (i - s) (by omega)]
      rw [getD_eq_getElem d (i - s) (by omega)]
      congr 1
      simp [ringContents_length]

/-- Taking a prefix of the contents. -/
theorem ringContents_take (buf : Nat → Nat) (p s n : Nat) (hn : n ≤ s) :
    (ringContents buf p s).take n = ringContents buf p n := by
  apply List.ext_getElem
  · simp [ringContents]
    omega
  · intro i h1 h2
    have hi : i < n := by
      simpa [ringContents] using h2
    rw [List.getElem_take]
    simp [ringContents]

/-- Dropping a prefix of the contents advances the tail. -/
theorem ringContents_drop (buf : Nat → Nat) (p s n : Nat) :
    (ringContents buf p s).drop n = ringContents buf ((p + n) % UDS_BUF) (s - n) := by
  apply List.ext_getElem
  · simp [ringContents]
  · intro i h1 h2
    rw [List.getElem_drop]
    simp only [ringContents, List.getElem_map, List.getElem_range]
    congr 1
    simp only [UDS_BUF]
    omega


/-! ### Data-path step lemmas -/

/-- One successful connection-oriented write of all of `data` into the peer
`B`: fits in the buffer, so the full length is deposited at the head; only
slot `B` changes, and of it only `buf`, `size` and possibly `sel_ops`. -/
theorem perform_write_conn (fuel : Nat) (st : Table) (A B : Nat)
    (data : List Nat)
    (hty : (st A).type = SOCK_STREAM ∨ (st A).type = SOCK_SEQPACKET)
    (hW : (st A).mode &&& UDS_W ≠ 0)
    (hpA : (st A).peer = (B : Int))
    (hpB : (st B).peer ≠ -1)
    (hR : (st B).mode &&& UDS_R ≠ 0)
    (hsusp : (st B).suspended ≠ UDS_SUSPENDED_READ)
    (hlen : data.length ≠ 0)
    (hfit : (st B).size + data.length ≤ UDS_BUF)
    (hseq : (st A).type = SOCK_SEQPACKET → (st B).size = 0) :
    (uds_perform_write fuel st A data data.length false).1 = (data.length : Int) ∧
    ((uds_perform_write fuel st A data data.length false).2 B).buf =
      ringDeposit (st B).buf (((st B).pos + (st B).size) % UDS_BUF) data ∧
    ((uds_perform_write fuel st A data data.length false).2 B).pos = (st B).pos ∧
    ((uds_perform_write fuel st A data data.length false).2 B).size =
      (st B).size + data.length ∧
    ((uds_perform_write fuel st A data data.length false).2 B).state = (st B).state ∧
    ((uds_perform_write fuel st A data data.length false).2 B).mode = (st B).mode ∧
    ((uds_perform_write fuel st A data data.length false).2 B).type = (st B).type ∧
    ((uds_perform_write fuel st A data data.length false).2 B).peer = (st B).peer ∧
    ((uds_perform_write fuel st A data data.length false).2 B).suspended =
      (st B).suspended ∧
    ((uds_perform_write fuel st A data data.length false).2 B).err = (st B).err ∧
    (∀ j, j ≠ B → (uds_perform_write fuel st A data data.length false).2 j = st j) := by
  have hdg : (st A).type ≠ SOCK_DGRAM := by
    rcases hty with h | h <;> rw [h] <;> decide
  have hbig : ¬ (UDS_BUF < data.length ∧ (st A).type ≠ SOCK_STREAM) :=
    fun hc => absurd hc.1 (by omega)
  have hgate : ¬ ((st B).size = UDS_BUF ∨
      ((st A).type = SOCK_SEQPACKET ∧ (st B).size > 0)) := by
    rintro (h1 | ⟨h2, h3⟩)
    · omega
    · have := hseq h2
      omega
  have hmin : min data.length (UDS_BUF - (st B).size) = data.length := by omega
  unfold uds_perform_write performWriteCore writeToCore depositT4 depositT3 depositT2 depositT1
  simp only [hlen, hW, hbig, hty, hpA, toNat_natCast_eq, natCast_ne_negOne B,
    hpB, hR, hdg, hgate, hmin, upd_self, if_false, ite_false, ite_true,
    if_true, false_and, and_false, Bool.false_eq_true, not_false_eq_true,
    List.take_length, hsusp]
  refine ⟨trivial, ?_⟩
  by_cases hsel : (st B).sel_ops &&& CDEV_OP_RD ≠ 0 ∧ (st B).size + data.length > 0
  · rw [if_pos hsel]
    simp only [upd_upd_same, upd_self, true_and, and_true]
    intro j hj
    rw [upd_ne _ _ _ _ hj]
  · rw [if_neg hsel]
    simp only [upd_self, true_and, and_true]
    intro j hj
    rw [upd_ne _ _ _ _ hj]

/-- One read of `r` bytes from the non-empty buffer of slot `B`: returns
`min r size` bytes and drains them from the tail; only `B`'s buffer fields
and (possibly) the peer's `sel_ops` change. -/
theorem upd_fields_suspended (st : Table) (B q m j : Nat) :
    ((upd st B fun x => { x with pos := q, size := x.size - m }) j).suspended =
      (st j).suspended := by
  by_cases h : j = B
  · subst h
    rw [upd_self]
  · rw [upd_ne _ _ _ _ h]

theorem eqNoSel_refl (x : UdsFd) : eqNoSel x x :=
  ⟨rfl, rfl, rfl, rfl, rfl, rfl, rfl, rfl, rfl⟩

/-- Clearing a select bit on any slot does not disturb a `ReadPost`. -/
theorem ReadPost_sel (st : Table) (B m : Nat) (T : Table) (p k : Nat)
    (h : ReadPost st B m T) :
    ReadPost st B m (upd T p fun f => { f with sel_ops := f.sel_ops &&& k }) := by
  obtain ⟨h1, h2, h3, h4, h5, h6, h7, h8, h9, h10⟩ := h
  by_cases hpB : B = p
  · subst hpB
    refine ⟨?_, ?_, ?_, ?_, ?_, ?_, ?_, ?_, ?_, ?_⟩
    · simpa [upd_self] using h1
    · simpa [upd_self] using h2
    · simpa [upd_self] using h3
    · simpa [upd_self] using h4
    · simpa [upd_self] using h5
    · simpa [upd_self] using h6
    · simpa [upd_self] using h7
    · simpa [upd_self] using h8
    · simpa [upd_self] using h9
    · intro j hj
      rw [upd_ne _ _ _ _ hj]
      exact h10 j hj
  · refine ⟨?_, ?_, ?_, ?_, ?_, ?_, ?_, ?_, ?_, ?_⟩
    · simpa [upd_ne _ _ _ _ hpB] using h1
    · simpa [upd_ne _ _ _ _ hpB] using h2
    · simpa [upd_ne _ _ _ _ hpB] using h3
    · simpa [upd_ne _ _ _ _ hpB] using h4
    · simpa [upd_ne _ _ _ _ hpB] using h5
    · simpa [upd_ne _ _ _ _ hpB] using h6
    · simpa [upd_ne _ _ _ _ hpB] using h7
    · simpa [upd_ne _ _ _ _ hpB] using h8
    · simpa [upd_ne _ _ _ _ hpB] using h9
    · intro j hj
      by_cases hjp : j = p
      · subst hjp
        rw [upd_self]
        obtain ⟨g1, g2, g3, g4, g5, g6, g7, g8, g9⟩ := h10 j hj
        exact ⟨g1, g2, g3, g4, g5, g6, g7, g8, g9⟩
      · rw [upd_ne _ _ _ _ hjp]
        exact h10 j hj

theorem ReadPost_drain_zero (st : Table) (B m : Nat)
    (hz : (st B).size - m = 0) :
    ReadPost st B m (upd st B fun x =>
      { x with pos := 0, size := x.size - m }) := by
  refine ⟨?_, ?_, ?_, ?_, ?_, ?_, ?_, ?_, ?_, ?_⟩
  · simp [upd_self]
  · simp [upd_self, hz]
  · simp [upd_self]
  · simp [upd_self]
  · simp [upd_self]
  · simp [upd_self]
  · simp [upd_self]
  · simp [upd_self]
  · simp [upd_self]
  · intro j hj
    rw [upd_ne _ _ _ _ hj]
    exact eqNoSel_refl _

theorem ReadPost_drain_pos (st : Table) (B m : Nat)
    (hz : (st B).size - m ≠ 0) :
    ReadPost st B m (upd st B fun f =>
      { f with pos := ((st B).pos + m) % UDS_BUF, size := f.size - m }) := by
  refine ⟨?_, ?_, ?_, ?_, ?_, ?_, ?_, ?_, ?_, ?_⟩
  · simp [upd_self]
  · simp [upd_self, hz]
  · simp [upd_self]
  · simp [upd_self]
  · simp [upd_self]
  · simp [upd_self]
  · simp [upd_self]
  · simp [upd_self]
  · simp [upd_self]
  · intro j hj
    rw [upd_ne _ _ _ _ hj]
    exact eqNoSel_refl _

theorem perform_read_nonempty (fuel : Nat) (st : Table) (B : Nat) (r : Nat)
    (hR : (st B).mode &&& UDS_R ≠ 0)
    (hr : r ≠ 0)
    (hsz : (st B).size ≠ 0)
    (hps : (st B).peer ≠ -1 →
      (st (st B).peer.toNat).suspended ≠ UDS_SUSPENDED_WRITE) :
    (uds_perform_read fuel st B r false).1 = ((min r (st B).size : Nat) : Int) ∧
    (uds_perform_read fuel st B r false).2.1 =
      ringExtract (st B).buf (st B).pos (min r (st B).size) ∧
    ReadPost st B (min r (st B).size) (uds_perform_read fuel st B r false).2.2 := by
  unfold uds_perform_read performReadCore drainT4 drainT3 drainT2
  simp only [hr, hR, hsz, Bool.false_eq_true, if_false, ite_false, upd_self,
    not_false_eq_true, ne_eq, true_and]
  by_cases hpeer : (st B).peer = -1
  · simp only [hpeer, not_true_eq_false, false_and, if_false, ite_false]
    by_cases hempty : (st B).size - min r (st B).size = 0
    · rw [if_pos hempty]
      simp only [upd_upd_same]
      exact ReadPost_drain_zero st B _ hempty
    · rw [if_neg hempty]
      exact ReadPost_drain_pos st B _ hempty
  · have hns := hps hpeer
    simp only [hpeer, not_false_eq_true, true_and]
    by_cases hempty : (st B).size - min r (st B).size = 0
    · rw [if_pos hempty]
      simp only [upd_upd_same]
      have hwake : ¬ (((upd st B fun x =>
          { x with pos := 0, size := x.size - min r (st B).size })
            (st B).peer.toNat).suspended = UDS_SUSPENDED_WRITE) := by
        rw [upd_fields_suspended]
        exact hns
      rw [if_neg hwake]
      split
      · exact ReadPost_sel st B _ _ _ _ (ReadPost_drain_zero st B _ hempty)
      · exact ReadPost_drain_zero st B _ hempty
    · rw [if_neg hempty]
      have hwake : ¬ (((upd st B fun f =>
          { f with pos := ((st B).pos + min r (st B).size) % UDS_BUF,
                   size := f.size - min r (st B).size })
            (st B).peer.toNat).suspended = UDS_SUSPENDED_WRITE) := by
        rw [upd_fields_suspended]
        exact hns
      rw [if_neg hwake]
      split
      · exact ReadPost_sel st B _ _ _ _ (ReadPost_drain_pos st B _ hempty)
      · exact ReadPost_drain_pos st B _ hempty


/-! ### C1: SEQPACKET partial read -/

/-- C1 counterexample.  On a connected SEQPACKET pair (slots 1 and 2, B's
buffer empty), a write of the 3-byte message "abc" returns 3 and a read
requesting 2 bytes returns 2 — but the receiver's buffer is NOT left
empty: the residual byte stays buffered (`size = 1`), contradicting the
claim that the residual of a partially read SEQPACKET message is
discarded. -/
theorem seqpacket_residual_counterexample :
    (uds_perform_write 1 c1 1 [97, 98, 99] 3 false).1 = 3 ∧
    (uds_perform_read 1 (uds_perform_write 1 c1 1 [97, 98, 99] 3 false).2
      2 2 false).1 = 2 ∧
    ¬ (((uds_perform_read 1 (uds_perform_write 1 c1 1 [97, 98, 99] 3 false).2
      2 2 false).2.2 2).size = 0) ∧
    ((uds_perform_read 1 (uds_perform_write 1 c1 1 [97, 98, 99] 3 false).2
      2 2 false).2.2 2).size = 1 := by
  decide

/-- C1 amended.  For a connected SEQPACKET pair `A`-`B` with `B`'s buffer
empty, after a successful write on `A` of a message of `m = data.length ≤ B`
bytes, a read on `B` requesting `0 < r < m` bytes returns exactly `r` bytes
(the first `r` bytes of the message) and leaves the residual `m - r` bytes
in `B`'s buffer: the residual is NOT discarded, and a later read drains it
(`contents` is the rest of the message). -/
theorem seqpacket_partial_read_keeps_residual (fuel : Nat) (st : Table)
    (A B : Nat) (data : List Nat) (r : Nat)
    (hAB : A ≠ B)
    (htyA : (st A).type = SOCK_SEQPACKET)
    (hW : (st A).mode &&& UDS_W ≠ 0)
    (hR : (st B).mode &&& UDS_R ≠ 0)
    (hpA : (st A).peer = (B : Int))
    (hpB : (st B).peer = (A : Int))
    (hsB : (st B).suspended ≠ UDS_SUSPENDED_READ)
    (hsA : (st A).suspended ≠ UDS_SUSPENDED_WRITE)
    (hszB : (st B).size = 0)
    (hposB : (st B).pos < UDS_BUF)
    (hm : data.length ≠ 0) (hmB : data.length ≤ UDS_BUF)
    (hr0 : 0 < r) (hrm : r < data.length) :
    (uds_perform_write fuel st A data data.length false).1 = (data.length : Int) ∧
    (uds_perform_read fuel (uds_perform_write fuel st A data data.length false).2
      B r false).1 = (r : Int) ∧
    (uds_perform_read fuel (uds_perform_write fuel st A data data.length false).2
      B r false).2.1 = data.take r ∧
    ((uds_perform_read fuel (uds_perform_write fuel st A data data.length false).2
      B r false).2.2 B).size = data.length - r ∧
    contents ((uds_perform_read fuel (uds_perform_write fuel st A data
      data.length false).2 B r false).2.2 B) = data.drop r := by
  obtain ⟨w1, wbuf, wpos, wsize, -, wmode, -, wpeer, wsusp, -, wother⟩ :=
    perform_write_conn fuel st A B data (Or.inr htyA) hW hpA
      (by rw [hpB]; exact natCast_ne_negOne A) hR hsB hm (by omega)
      (fun _ => hszB)
  set st1 := (uds_perform_write fuel st A data data.length false).2 with hst1
  have hsz1 : (st1 B).size = data.length := by rw [wsize, hszB, Nat.zero_add]
  have hcont1 : ringContents (st1 B).buf (st1 B).pos (st1 B).size = data := by
    rw [wbuf, wpos, hsz1, hszB]
    have := ringContents_deposit (st B).buf (st B).pos 0 data hposB (by omega)
    simpa [ringContents] using this
  obtain ⟨r1, rout, rbuf, rpos, rsize, -, -, -, -, -, -, -⟩ :=
    perform_read_nonempty fuel st1 B r (by rw [wmode]; exact hR)
      (Nat.pos_iff_ne_zero.mp hr0) (by rw [hsz1]; exact hm)
      (by
        intro hne
        rw [wpeer, hpB, toNat_natCast_eq, wother A hAB]
        exact hsA)
  have hmin : min r (st1 B).size = r := by
    rw [hsz1]
    omega
  rw [hmin] at r1 rout rpos rsize
  refine ⟨w1, by rw [r1], ?_, by rw [rsize, hsz1], ?_⟩
  · rw [rout, ringExtract_eq (st1 B).buf (st1 B).pos r
      (by rw [wpos]; exact hposB) (by omega)]
    rw [← ringContents_take (st1 B).buf (st1 B).pos (st1 B).size r
      (by rw [hsz1]; omega)]
    rw [hcont1]
  · unfold contents
    rw [rbuf, rpos, rsize, hsz1]
    rw [if_neg (by omega)]
    have hdrop := ringContents_drop (st1 B).buf (st1 B).pos data.length r
    have hc : ringContents (st1 B).buf (st1 B).pos data.length = data := by
      rw [← hsz1]
      exact hcont1
    rw [← hdrop, hc]

theorem seqpacket_partial_read_keeps_residual_witness :
    (uds_perform_write 1 wc1 1 [10, 20, 30] 3 false).1 = (3 : Int) ∧
    (uds_perform_read 1 (uds_perform_write 1 wc1 1 [10, 20, 30] 3 false).2
      2 2 false).1 = (2 : Int) ∧
    (uds_perform_read 1 (uds_perform_write 1 wc1 1 [10, 20, 30] 3 false).2
      2 2 false).2.1 = [10, 20] ∧
    ((uds_perform_read 1 (uds_perform_write 1 wc1 1 [10, 20, 30] 3 false).2
      2 2 false).2.2 2).size = 1 ∧
    contents ((uds_perform_read 1 (uds_perform_write 1 wc1 1 [10, 20, 30]
      3 false).2 2 2 false).2.2 2) = [30] := by
  have h := seqpacket_partial_read_keeps_residual 1 wc1 1 2 [10, 20, 30] 2
    (by decide) (by decide) (by decide) (by decide) (by decide) (by decide)
    (by decide) (by decide) (by decide) (by decide) (by decide) (by decide)
    (by decide) (by decide)
  exact h

/-! ### C3: destination of a DGRAM write -/

/-- C3 counterexample.  A DGRAM socket (slot 1) that is bound to the very
path it targets resolves the address scan to itself, and a write deposits
the message into its own ring buffer — contradicting the claim that the
destination slot is never the writer itself and that no operation deposits
into the writer's own buffer. -/
theorem dgram_self_write_counterexample :
    dgramScan c3 1 = some 1 ∧
    (uds_perform_write 1 c3 1 [7, 8] 2 false).1 = 2 ∧
    ((uds_perform_write 1 c3 1 [7, 8] 2 false).2 1).size = 2 := by
  decide

theorem writeToCore_dgram_only_dest (fuel : Nat) (st : Table) (h d : Nat)
    (data : List Nat) (s : Nat)
    (hty : (st h).type = SOCK_DGRAM)
    (hsusp : (st d).suspended ≠ UDS_SUSPENDED_READ)
    (j : Nat) (hj : j ≠ d) :
    (writeToCore (uds_unsuspend fuel) st h data s false d).2 j = st j := by
  unfold writeToCore depositT4 depositT3 depositT2 depositT1
  simp only [hty, if_true, ite_true, Bool.false_eq_true, if_false, ite_false,
    upd_upd_same, true_and]
  split
  · rfl
  split
  · rfl
  split
  · rfl
  split
  · exact absurd (by simpa [upd_self] using (by assumption :
      ((upd st d fun f =>
        { f with
          buf := ringDeposit f.buf (((st d).pos + (st d).size) % UDS_BUF)
            (data.take (min s (UDS_BUF - (st d).size))),
          size := f.size + min s (UDS_BUF - (st d).size),
          source_family := (st h).addr_family,
          source_path := (st h).addr_path }) d).suspended =
        UDS_SUSPENDED_READ)) hsusp
  split
  · simp [upd, hj]
  · simp [upd, hj]

/-- C3 amended.  The destination of a DGRAM write is the first slot whose
bound address matches the writer's target — possibly the writer itself
(self-addressed datagram, see the counterexample).  Apart from that
resolved destination `d`, no slot is modified by the write; in particular,
whenever `d ≠ h`, slot `h`'s own buffer is untouched. -/
theorem dgram_write_only_dest (fuel : Nat) (st : Table) (h d : Nat)
    (data : List Nat) (s : Nat)
    (hty : (st h).type = SOCK_DGRAM)
    (hscan : dgramScan st h = some d)
    (hsusp : (st d).suspended ≠ UDS_SUSPENDED_READ)
    (j : Nat) (hj : j ≠ d) :
    (uds_perform_write fuel st h data s false).2 j = st j := by
  unfold uds_perform_write performWriteCore
  have hnc : ¬ ((st h).type = SOCK_STREAM ∨ (st h).type = SOCK_SEQPACKET) := by
    rw [hty]
    decide
  simp only [hnc, hscan, if_false, ite_false]
  split
  · rfl
  split
  · rfl
  split
  · rfl
  exact writeToCore_dgram_only_dest fuel st h d data s hty hsusp j hj

theorem dgram_write_only_dest_witness :
    (uds_perform_write 1 wc3 1 [7] 1 false).2 1 = wc3 1 :=
  dgram_write_only_dest 1 wc3 1 2 [7] 1 (by decide) (by decide) (by decide)
    1 (by decide)

/-! ### C2: STREAM FIFO round trip -/

theorem streamPair_write (fuel : Nat) (A B : Nat) (t : Table) (bs w : List Nat)
    (hAB : A ≠ B) (hp : StreamPair A B t bs)
    (hfit : bs.length + w.length ≤ UDS_BUF) :
    (uds_perform_write fuel t A w w.length false).1 = (w.length : Int) ∧
    StreamPair A B (uds_perform_write fuel t A w w.length false).2 (bs ++ w) := by
  obtain ⟨hty, hW, hR, hpA, hpB, hsA, hsB, hsize, hpos, hbnd, hcont⟩ := hp
  by_cases hw0 : w.length = 0
  · have hwnil : w = [] := List.length_eq_zero.mp hw0
    subst hwnil
    unfold uds_perform_write performWriteCore
    simp only [List.length_nil, ite_true, if_true]
    exact ⟨rfl, hty, hW, hR, hpA, hpB, hsA, hsB, by simpa using hsize, hpos,
      by simpa using hbnd, by simpa using hcont⟩
  · obtain ⟨w1, wbuf, wpos, wsize, -, wmode, -, wpeer, wsusp, -, wother⟩ :=
      perform_write_conn fuel t A B w (Or.inl hty) hW hpA
        (by rw [hpB]; exact natCast_ne_negOne A) hR hsB hw0
        (by omega) (by rw [hty]; intro hc; exact absurd hc (by decide))
    refine ⟨w1, ?_, ?_, ?_, ?_, ?_, ?_, ?_, ?_, ?_, ?_, ?_⟩
    · rw [wother A hAB]; exact hty
    · rw [wother A hAB]; exact hW
    · rw [wmode]; exact hR
    · rw [wother A hAB]; exact hpA
    · rw [wpeer]; exact hpB
    · rw [wother A hAB]; exact hsA
    · rw [wsusp]; exact hsB
    · rw [wsize, hsize, List.length_append]
    · rw [wpos]; exact hpos
    · rw [List.length_append]; omega
    · rw [wbuf, wpos, wsize, hsize]
      have hdep := ringContents_deposit (t B).buf (t B).pos bs.length w hpos
        (by omega)
      rw [← hsize, hcont] at hdep
      rw [← hsize]
      exact hdep

theorem streamPair_writeSeq (fuel : Nat) (A B : Nat) (ws : List (List Nat)) :
    ∀ (t : Table) (bs : List Nat), A ≠ B → StreamPair A B t bs →
    bs.length + (ws.map List.length).sum ≤ UDS_BUF →
    StreamPair A B (writeSeq fuel A t ws) (bs ++ ws.flatten) := by
  induction ws with
  | nil =>
    intro t bs hAB hp hb
    simpa [writeSeq] using hp
  | cons w ws ih =>
    intro t bs hAB hp hb
    simp only [List.map_cons, List.sum_cons] at hb
    have hstep := streamPair_write fuel A B t bs w hAB hp (by omega)
    have := ih (uds_perform_write fuel t A w w.length false).2 (bs ++ w) hAB
      hstep.2 (by rw [List.length_append]; omega)
    simpa [writeSeq, List.append_assoc] using this

theorem streamPair_read (fuel : Nat) (A B : Nat) (t : Table) (bs : List Nat)
    (r : Nat) (hAB : A ≠ B) (hp : StreamPair A B t bs)
    (hr : r ≤ bs.length) :
    (uds_perform_read fuel t B r false).2.1 = bs.take r ∧
    StreamPair A B (uds_perform_read fuel t B r false).2.2 (bs.drop r) := by
  obtain ⟨hty, hW, hR, hpA, hpB, hsA, hsB, hsize, hpos, hbnd, hcont⟩ := hp
  by_cases hr0 : r = 0
  · subst hr0
    unfold uds_perform_read performReadCore
    simp only [ite_true, if_true]
    exact ⟨rfl, hty, hW, hR, hpA, hpB, hsA, hsB, by simpa using hsize, hpos,
      by simpa using hbnd, by simpa using hcont⟩
  · have hsz : (t B).size ≠ 0 := by
      rw [hsize]
      omega
    obtain ⟨r1, rout, ⟨rbuf, rpos, rsize, -, rmode, -, rpeer, rsusp, -, rother⟩⟩ :=
      perform_read_nonempty fuel t B r hR hr0 hsz
        (by
          intro hne
          rw [hpB, toNat_natCast_eq]
          exact hsA)
    have hmin : min r (t B).size = r := by
      rw [hsize]
      omega
    rw [hmin] at rout rpos rsize
    constructor
    · rw [rout, ringExtract_eq (t B).buf (t B).pos r hpos (by omega)]
      rw [← ringContents_take (t B).buf (t B).pos (t B).size r (by omega)]
      rw [hcont]
    · have heqA := rother A hAB
      obtain ⟨-, hAmode, hAty, hApeer, hAsusp, -, -, -, -⟩ := heqA
      refine ⟨?_, ?_, ?_, ?_, ?_, ?_, ?_, ?_, ?_, ?_, ?_⟩
      · rw [hAty]; exact hty
      · rw [hAmode]; exact hW
      · rw [rmode]; exact hR
      · rw [hApeer]; exact hpA
      · rw [rpeer]; exact hpB
      · rw [hAsusp]; exact hsA
      · rw [rsusp]; exact hsB
      · rw [rsize, hsize, List.length_drop]
      · rw [rpos]
        split
        · simp [UDS_BUF]
        · simp only [UDS_BUF]
          omega
      · rw [List.length_drop]; omega
      · rw [rbuf, rpos, rsize]
        by_cases hz : (t B).size - r = 0
        · rw [if_pos hz]
          have : bs.drop r = [] := by
            apply List.eq_nil_of_length_eq_zero
            rw [List.length_drop]
            omega
          rw [this, hz]
          simp [ringContents]
        · rw [if_neg hz]
          have hdrop := ringContents_drop (t B).buf (t B).pos (t B).size r
          rw [hcont] at hdrop
          rw [← hdrop]

theorem streamPair_readSeq (fuel : Nat) (A B : Nat) (rs : List Nat) :
    ∀ (t : Table) (bs : List Nat), A ≠ B → StreamPair A B t bs →
    rs.sum ≤ bs.length →
    (readSeq fuel B t rs).1 = bs.take rs.sum ∧
    StreamPair A B (readSeq fuel B t rs).2 (bs.drop rs.sum) := by
  induction rs with
  | nil =>
    intro t bs hAB hp hs
    simpa [readSeq] using hp
  | cons r rs ih =>
    intro t bs hAB hp hs
    simp only [List.sum_cons] at hs
    have hstep := streamPair_read fuel A B t bs r hAB hp (by omega)
    have hrest := ih (uds_perform_read fuel t B r false).2.2 (bs.drop r) hAB
      hstep.2 (by rw [List.length_drop]; omega)
    constructor
    · show (uds_perform_read fuel t B r false).2.1 ++
        (readSeq fuel B (uds_perform_read fuel t B r false).2.2 rs).1 =
        bs.take (r + rs.sum)
      rw [hstep.1, hrest.1, List.take_add]
    · show StreamPair A B
        (readSeq fuel B (uds_perform_read fuel t B r false).2.2 rs).2
        (bs.drop (r + rs.sum))
      have h2 := hrest.2
      rwa [List.drop_drop] at h2

/-- C2.  For a quiescent connected STREAM pair `A`-`B` with `B`'s buffer
initially empty, any sequence of writes on `A` totaling `k ≤ B` bytes,
followed by reads on `B` with request sizes totaling `k`, delivers to the
readers exactly the written byte stream in order (`ws.flatten`) — including
the wrap-around cases. -/
theorem stream_fifo_in_order (fuel : Nat) (st : Table) (A B : Nat)
    (ws : List (List Nat)) (rs : List Nat)
    (hAB : A ≠ B)
    (hty : (st A).type = SOCK_STREAM)
    (hW : (st A).mode &&& UDS_W ≠ 0)
    (hR : (st B).mode &&& UDS_R ≠ 0)
    (hpA : (st A).peer = (B : Int))
    (hpB : (st B).peer = (A : Int))
    (hsA : (st A).suspended ≠ UDS_SUSPENDED_WRITE)
    (hsB : (st B).suspended ≠ UDS_SUSPENDED_READ)
    (hsz : (st B).size = 0)
    (hpos : (st B).pos < UDS_BUF)
    (hsum : (ws.map List.length).sum ≤ UDS_BUF)
    (hrs : rs.sum = (ws.map List.length).sum) :
    (readSeq fuel B (writeSeq fuel A st ws) rs).1 = ws.flatten := by
  have hp0 : StreamPair A B st [] := by
    refine ⟨hty, hW, hR, hpA, hpB, hsA, hsB, by simpa using hsz, hpos,
      by simp, ?_⟩
    rw [hsz]
    simp [ringContents]
  have hw := streamPair_writeSeq fuel A B ws st [] hAB hp0 (by simpa using hsum)
  rw [List.nil_append] at hw
  have hlen : (ws.flatten).length = (ws.map List.length).sum := List.length_flatten ws
  have hr := streamPair_readSeq fuel A B rs (writeSeq fuel A st ws) ws.flatten hAB
    hw (by omega)
  rw [hr.1, hrs, ← hlen, List.take_length]

theorem stream_fifo_in_order_witness :
    (readSeq 1 2 (writeSeq 1 1 wc2 [[1, 2], [3]]) [2, 1]).1 = [1, 2, 3] := by
  have h := stream_fifo_in_order 1 wc2 1 2 [[1, 2], [3]] [2, 1] (by decide)
    (by decide) (by decide) (by decide) (by decide) (by decide) (by decide)
    (by decide) (by decide) (by decide) (by decide) (by decide)
  exact h

/-! ### C4: the buffer invariant is preserved by every operation -/

theorem BufInv_upd (t : Table) (i : Nat) (f : UdsFd → UdsFd) (h : BufInv t)
    (hf : i < NR_FDS → (f (t i)).state = UDS_INUSE →
      (f (t i)).size ≤ UDS_BUF ∧ (f (t i)).pos < UDS_BUF ∧
      ((f (t i)).size = 0 → (f (t i)).pos = 0)) :
    BufInv (upd t i f) := by
  intro j hj hstate
  by_cases hji : j = i
  · subst hji
    rw [upd_self] at hstate ⊢
    exact hf hj hstate
  · rw [upd_ne _ _ _ _ hji] at hstate ⊢
    exact h j hj hstate

/-- Updates that do not touch `state`, `size` or `pos` preserve the
invariant. -/
theorem BufInv_upd_keep (t : Table) (i : Nat) (f : UdsFd → UdsFd) (h : BufInv t)
    (hst : (f (t i)).state = (t i).state)
    (hsz : (f (t i)).size = (t i).size)
    (hpos : (f (t i)).pos = (t i).pos) :
    BufInv (upd t i f) := by
  refine BufInv_upd t i f h ?_
  intro hi hstate
  rw [hst] at hstate
  rw [hsz, hpos]
  exact h i hi hstate

theorem UDS_BUF_pos : 0 < UDS_BUF := by decide

theorem drainT2_bufInv (t : Table) (m rsize : Nat) (h : BufInv t) :
    BufInv (drainT2 t m rsize) := by
  unfold drainT2
  split
  · rw [upd_upd_same]
    refine BufInv_upd t m _ h ?_
    intro hi hstate
    have hold := h m hi hstate
    dsimp only
    exact ⟨by omega, UDS_BUF_pos, fun _ => rfl⟩
  · rename_i hne
    rw [upd_self] at hne
    dsimp only at hne
    refine BufInv_upd t m _ h ?_
    intro hi hstate
    have hold := h m hi hstate
    dsimp only
    exact ⟨by omega, Nat.mod_lt _ UDS_BUF_pos, fun hc => absurd hc hne⟩

theorem drainT3_bufInv (wake : Table → Nat → Table)
    (hwake : ∀ t m, BufInv t → BufInv (wake t m))
    (t : Table) (m rsize : Nat) (peer : Int) (h : BufInv t) :
    BufInv (drainT3 wake t m rsize peer) := by
  unfold drainT3
  split
  · exact hwake _ _ (drainT2_bufInv t m rsize h)
  · exact drainT2_bufInv t m rsize h

theorem drainT4_bufInv (wake : Table → Nat → Table)
    (hwake : ∀ t m, BufInv t → BufInv (wake t m))
    (t : Table) (m rsize : Nat) (peer : Int) (h : BufInv t) :
    BufInv (drainT4 wake t m rsize peer) := by
  unfold drainT4
  split
  · exact BufInv_upd_keep _ _ _ (drainT3_bufInv wake hwake t m rsize peer h)
      rfl rfl rfl
  · exact drainT3_bufInv wake hwake t m rsize peer h

theorem performReadCore_bufInv (wake : Table → Nat → Table)
    (hwake : ∀ t m, BufInv t → BufInv (wake t m))
    (t : Table) (m s : Nat) (p : Bool) (h : BufInv t) :
    BufInv (performReadCore wake t m s p).2.2 := by
  unfold performReadCore
  split
  · exact h
  split
  · exact h
  split
  · split
    · split
      · split
        · exact h
        · exact BufInv_upd_keep t m _ h rfl rfl rfl
      · exact h
    · split
      · exact h
      · split
        · exact h
        · split
          · exact h
          · exact h
  · split
    · exact h
    · exact drainT4_bufInv wake hwake t m _ _ h

theorem depositT1_bufInv (t : Table) (peer : Nat) (data : List Nat)
    (wsize : Nat) (hw : wsize ≤ UDS_BUF - (t peer).size) (h : BufInv t) :
    BufInv (depositT1 t peer data wsize) := by
  unfold depositT1
  refine BufInv_upd t peer _ h ?_
  intro hi hstate
  have hold := h peer hi hstate
  dsimp only
  exact ⟨by omega, hold.2.1, fun hc => hold.2.2 (by omega)⟩

theorem depositT2_bufInv (t : Table) (minor peer : Nat) (data : List Nat)
    (wsize : Nat) (hw : wsize ≤ UDS_BUF - (t peer).size) (h : BufInv t) :
    BufInv (depositT2 t minor peer data wsize) := by
  unfold depositT2
  split
  · exact BufInv_upd_keep _ _ _ (depositT1_bufInv t peer data wsize hw h)
      rfl rfl rfl
  · exact depositT1_bufInv t peer data wsize hw h

theorem depositT3_bufInv (wake : Table → Nat → Table)
    (hwake : ∀ t m, BufInv t → BufInv (wake t m))
    (t : Table) (minor peer : Nat) (data : List Nat) (wsize : Nat)
    (hw : wsize ≤ UDS_BUF - (t peer).size) (h : BufInv t) :
    BufInv (depositT3 wake t minor peer data wsize) := by
  unfold depositT3
  split
  · exact hwake _ _ (depositT2_bufInv t minor peer data wsize hw h)
  · exact depositT2_bufInv t minor peer data wsize hw h

theorem depositT4_bufInv (wake : Table → Nat → Table)
    (hwake : ∀ t m, BufInv t → BufInv (wake t m))
    (t : Table) (minor peer : Nat) (data : List Nat) (wsize : Nat)
    (hw : wsize ≤ UDS_BUF - (t peer).size) (h : BufInv t) :
    BufInv (depositT4 wake t minor peer data wsize) := by
  unfold depositT4
  split
  · exact BufInv_upd_keep _ _ _
      (depositT3_bufInv wake hwake t minor peer data wsize hw h) rfl rfl rfl
  · exact depositT3_bufInv wake hwake t minor peer data wsize hw h

theorem writeToCore_bufInv (wake : Table → Nat → Table)
    (hwake : ∀ t m, BufInv t → BufInv (wake t m))
    (t : Table) (minor : Nat) (data : List Nat) (size : Nat) (p : Bool)
    (peer : Nat) (h : BufInv t) :
    BufInv (writeToCore wake t minor data size p peer).2 := by
  unfold writeToCore
  split
  · exact h
  split
  · exact h
  split
  · split
    · exact h
    · split
      · exact h
      · exact h
  · split
    · exact h
    · exact depositT4_bufInv wake hwake t minor peer data _
        (Nat.min_le_right _ _) h

theorem performWriteCore_bufInv (wake : Table → Nat → Table)
    (hwake : ∀ t m, BufInv t → BufInv (wake t m))
    (t : Table) (minor : Nat) (data : List Nat) (size : Nat) (p : Bool)
    (h : BufInv t) :
    BufInv (performWriteCore wake t minor data size p).2 := by
  unfold performWriteCore
  split
  · exact h
  split
  · exact h
  split
  · exact h
  split
  · split
    · split
      · split
        · exact h
        · exact BufInv_upd_keep t minor _ h rfl rfl rfl
      · exact h
    · split
      · exact h
      · exact writeToCore_bufInv wake hwake t minor data size p _ h
  · split
    · exact h
    · exact writeToCore_bufInv wake hwake t minor data size p _ h

theorem uds_unsuspend_bufInv (fuel : Nat) : ∀ (t : Table) (m : Nat),
    BufInv t → BufInv (uds_unsuspend fuel t m) := by
  induction fuel with
  | zero => exact fun t m h => h
  | succ fuel ih =>
    intro t m h
    unfold uds_unsuspend
    split
    · split
      · exact performReadCore_bufInv _ ih t m _ false h
      · exact BufInv_upd_keep _ _ _ (performReadCore_bufInv _ ih t m _ false h)
          rfl rfl rfl
    · split
      · split
        · exact performWriteCore_bufInv _ ih t m _ _ false h
        · exact BufInv_upd_keep _ _ _
            (performWriteCore_bufInv _ ih t m _ _ false h) rfl rfl rfl
      · split
        · exact BufInv_upd_keep t m _ h rfl rfl rfl
        · exact h

theorem uds_perform_read_bufInv (fuel : Nat) (t : Table) (m size : Nat)
    (p : Bool) (h : BufInv t) :
    BufInv (uds_perform_read fuel t m size p).2.2 :=
  performReadCore_bufInv _ (uds_unsuspend_bufInv fuel) t m size p h

theorem uds_perform_write_bufInv (fuel : Nat) (t : Table) (m : Nat)
    (data : List Nat) (size : Nat) (p : Bool) (h : BufInv t) :
    BufInv (uds_perform_write fuel t m data size p).2 :=
  performWriteCore_bufInv _ (uds_unsuspend_bufInv fuel) t m data size p h

theorem uds_reset_bufInv (fuel : Nat) (t : Table) (m : Nat) (h : BufInv t) :
    BufInv (uds_reset fuel t m) := by
  have h1 : BufInv (resetT1 t m) := BufInv_upd_keep t m _ h rfl rfl rfl
  have h2 : BufInv (resetT2 fuel t m) := by
    unfold resetT2
    split
    · exact uds_unsuspend_bufInv fuel _ m h1
    · exact h1
  unfold uds_reset
  split
  · exact BufInv_upd_keep _ _ _ h2 rfl rfl rfl
  · exact h2

theorem foldl_bufInv {α : Type} (step : Table → α → Table) (l : List α)
    (hstep : ∀ tc a, BufInv tc → BufInv (step tc a)) :
    ∀ t : Table, BufInv t → BufInv (l.foldl step t) := by
  induction l with
  | nil => exact fun t h => h
  | cons a l ih => exact fun t h => ih _ (hstep t a h)

theorem BufInv_upd_emptyFd (t : Table) (m : Nat) (h : BufInv t) :
    BufInv (upd t m fun _ => emptyFd) := by
  refine BufInv_upd t m _ h ?_
  intro hi hstate
  exact ⟨by decide, by decide, fun _ => rfl⟩

theorem uds_open_bufInv (t : Table) (endpt : Int) (h : BufInv t) :
    BufInv (uds_open t endpt).2 := by
  unfold uds_open
  split
  · exact h
  · refine BufInv_upd t _ _ h ?_
    intro hi hstate
    dsimp only
    exact ⟨by decide, by decide, fun _ => rfl⟩

theorem uds_close_bufInv (fuel : Nat) (t : Table) (minor : Int)
    (h : BufInv t) :
    BufInv (uds_close fuel t minor).2 := by
  unfold uds_close
  split
  · exact h
  split
  · exact h
  split
  · split
    · exact h
    · exact BufInv_upd_emptyFd _ _ (BufInv_upd_keep _ _ _ h rfl rfl rfl)
  · split
    · exact BufInv_upd_emptyFd _ _ (uds_reset_bufInv fuel t _ h)
    · split
      · refine BufInv_upd_emptyFd _ _ ?_
        refine foldl_bufInv _ _ ?_ t h
        intro tc a htc
        split
        · exact uds_reset_bufInv fuel tc _ htc
        · exact htc
      · exact BufInv_upd_emptyFd _ _ h

theorem uds_cancel_bufInv (t : Table) (minor endpt id : Int) (h : BufInv t) :
    BufInv (uds_cancel t minor endpt id).2 := by
  unfold uds_cancel
  split
  · exact h
  split
  · exact h
  split
  · exact h
  split
  · refine BufInv_upd_keep _ _ _ ?_ rfl rfl rfl
    refine foldl_bufInv _ _ ?_ t h
    intro tc a htc
    split
    · exact BufInv_upd_keep _ _ _ htc rfl rfl rfl
    · exact htc
  · split
    · exact BufInv_upd_keep t _ _ h rfl rfl rfl
    · exact h

theorem uds_read_bufInv (fuel : Nat) (t : Table) (minor endpt grant : Int)
    (size flags : Nat) (id : Int) (h : BufInv t) :
    BufInv (uds_read fuel t minor endpt grant size flags id).2.2 := by
  have hs : BufInv (readSusp fuel t minor.toNat endpt grant size id) :=
    BufInv_upd_keep _ _ _ (uds_perform_read_bufInv fuel t _ size false h)
      rfl rfl rfl
  unfold uds_read
  split
  · exact h
  split
  · exact h
  split
  · split
    · exact uds_cancel_bufInv _ minor endpt id hs
    · exact hs
  · exact uds_perform_read_bufInv fuel t _ size false h

theorem uds_write_bufInv (fuel : Nat) (t : Table) (minor endpt grant : Int)
    (data : List Nat) (size flags : Nat) (id : Int) (h : BufInv t) :
    BufInv (uds_write fuel t minor endpt grant data size flags id).2 := by
  have hs : BufInv (writeSusp fuel t minor.toNat endpt grant data size id) :=
    BufInv_upd_keep _ _ _ (uds_perform_write_bufInv fuel t _ data size false h)
      rfl rfl rfl
  unfold uds_write
  split
  · exact h
  split
  · exact h
  split
  · split
    · exact uds_cancel_bufInv _ minor endpt id hs
    · exact hs
  · exact uds_perform_write_bufInv fuel t _ data size false h

theorem selT1_bufInv (fuel : Nat) (t : Table) (m ops0 : Nat) (h : BufInv t) :
    BufInv (selT1 fuel t m ops0) := by
  unfold selT1
  split
  · exact uds_perform_read_bufInv fuel t m 1 true h
  · exact h

theorem selT2_bufInv (fuel : Nat) (t : Table) (m ops0 : Nat) (h : BufInv t) :
    BufInv (selT2 fuel t m ops0) := by
  unfold selT2
  split
  · exact uds_perform_write_bufInv fuel _ m [] 1 true
      (selT1_bufInv fuel t m ops0 h)
  · exact selT1_bufInv fuel t m ops0 h

theorem uds_select_bufInv (fuel : Nat) (t : Table) (minor : Int)
    (ops0 : Nat) (endpt : Int) (h : BufInv t) :
    BufInv (uds_select fuel t minor ops0 endpt).2 := by
  unfold uds_select
  split
  · exact h
  split
  · exact h
  · dsimp only
    split
    · exact BufInv_upd_keep _ _ _ (selT2_bufInv fuel t _ ops0 h) rfl rfl rfl
    · exact selT2_bufInv fuel t _ ops0 h

/-- C4.  The buffer invariant — for every `UDS_INUSE` slot, `size ≤ B`,
`pos < B`, and `size = 0 → pos = 0` (`BufInv`) — is preserved by every
operation: `uds_open`, `uds_close`, `uds_read`, `uds_write`, `uds_select`,
`uds_cancel` and `uds_unsuspend`. -/
theorem buffer_invariant_preserved (fuel : Nat) (t : Table) (minor : Int)
    (m : Nat) (endpt grant id : Int) (data : List Nat) (size flags ops0 : Nat)
    (h : BufInv t) :
    BufInv (uds_open t endpt).2 ∧
    BufInv (uds_close fuel t minor).2 ∧
    BufInv (uds_read fuel t minor endpt grant size flags id).2.2 ∧
    BufInv (uds_write fuel t minor endpt grant data size flags id).2 ∧
    BufInv (uds_select fuel t minor ops0 endpt).2 ∧
    BufInv (uds_cancel t minor endpt id).2 ∧
    BufInv (uds_unsuspend fuel t m) :=
  ⟨uds_open_bufInv t endpt h,
   uds_close_bufInv fuel t minor h,
   uds_read_bufInv fuel t minor endpt grant size flags id h,
   uds_write_bufInv fuel t minor endpt grant data size flags id h,
   uds_select_bufInv fuel t minor ops0 endpt h,
   uds_cancel_bufInv t minor endpt id h,
   uds_unsuspend_bufInv fuel t m h⟩

theorem buffer_invariant_preserved_witness :
    BufInv initTable ∧
    (BufInv (uds_open initTable 10).2 ∧
     BufInv (uds_close 1 initTable 1).2 ∧
     BufInv (uds_read 1 initTable 1 10 20 8 0 77).2.2 ∧
     BufInv (uds_write 1 initTable 1 10 20 [1, 2] 2 0 78).2 ∧
     BufInv (uds_select 1 initTable 1 7 10).2 ∧
     BufInv (uds_cancel initTable 1 10 77).2 ∧
     BufInv (uds_unsuspend 1 initTable 1)) :=
  ⟨fun _ _ _ => ⟨Nat.zero_le _, UDS_BUF_pos, fun _ => rfl⟩,
   buffer_invariant_preserved 1 initTable 1 1 10 20 77 [1, 2] 8 0 7
     (fun _ _ _ => ⟨Nat.zero_le _, UDS_BUF_pos, fun _ => rfl⟩)⟩

end Uds

